import Mathlib

/-!
# The NATS middleware core: handler chains, the singleton guard and the
# per-subject subscription statistics

A shallow embedding of `middleware/nats/conn.go` and `middleware/nats/hook_sub.go`.

* Go functions with side effects are state transformers over a world `σ`
  (`σ → result × σ`); a Go `error` is an `Option Error` (`none` is `nil`).
* Interface values of the libraries the package calls (telemetry, transport,
  meter) are carried by records of their methods.
* `int64` arithmetic wraps modulo `2 ^ 64` (`wrap64`).
* A panic is a result: `Except.error` for a function that builds a value, a second
  component `some p` for a run that has made calls before it panicked. Pointers and
  interface values may be nil (`none`); reading a field through a nil pointer or
  calling a method on a nil interface value panics.
-/

namespace Nats

/-! ## Values shared by both files -/

/-- A non-nil Go `error` value, identified by its message. -/
abbrev Error := String

/-- The package variable `ErrMultipleMiddleWare` (`conn.go`, line 13). -/
def ErrMultipleMiddleWare : Error := "not allow create multiple instances"

/-- The fields of `nats.Msg` the package reads: the subject, the reply subject and
the payload bytes. -/
structure Msg where
  Subject : String
  Reply : String
  Data : List Nat
deriving DecidableEq, Repr

/-- The type `MsgHandler`, `func(ctx context.Context, msg *nats.Msg) error`: it is
used at this shape in `wrap` (`in(cxt, msg)`, result discarded with `_ =`). -/
abbrev MsgHandler (Context σ : Type) := Context → Msg → σ → Option Error × σ

/-- The transport callback type `nats.MsgHandler`, `func(msg *nats.Msg)`: it has no
result. -/
abbrev NatsMsgHandler (σ : Type) := Msg → σ → σ

/-- The interface `Middleware`: its one method used here is
`apply(in MsgHandler) MsgHandler`. -/
structure Middleware (Context σ : Type) where
  apply : MsgHandler Context σ → MsgHandler Context σ

/-- The type `PostFn`, called as `next(ctx, msg.Subject, msg.Data)` with two results
`resp, err`. -/
abbrev PostFn (Context σ Resp : Type) :=
  Context → String → List Nat → σ → (Resp × Option Error) × σ

/-- The type of `config.postHook`, called as `postHook(ctx, msg, resp)` with one
(error) result. -/
abbrev PostHook (Context σ Resp : Type) := Context → Msg → Resp → σ → Option Error × σ

/-- The fields of `config` that `conn.go` reads: the telemetry root and the optional
post-hook (`nil` is `none`). -/
structure config (Tele Context σ Resp : Type) where
  tele : Tele
  postHook : Option (PostHook Context σ Resp)

/-- The struct `Core` (`conn.go`, lines 16-23). `P` is the type of publisher values
(`PubMiddleware`), `SM` the type of the subscription meter. -/
structure Core (Tele Context σ Resp P SM : Type) where
  config : config Tele Context σ Resp
  list : List (Middleware Context σ)
  pubList : List P
  subMeter : SM

/-- The struct `ConnContext` (`conn.go`, lines 29-34). -/
structure ConnContext (Tele Context σ Resp P SM Conn : Type) where
  conn : Conn
  Publish : P
  Core : Core Tele Context σ Resp P SM

/-- The collaborators of `conn.go` that live outside the two source files, as the
methods the code calls on them:
* `Copy`, `Ctx`: `tele.Copy()` and `.Ctx()` of the telemetry root, each a call made in
  the world of the moment;
* `NewCommonPublish`: the base publisher of a connection;
* `pubApply mw pub`: the interface call `mw.apply(pub)` on a `PubMiddleware`;
* `connSubscribe`, `connQueueSubscribe`: `conn.Subscribe`, `conn.QueueSubscribe`
  of the transport, returning `(*nats.Subscription, error)`;
* `Hook`: `subMeter.Hook(sub, err)`. -/
structure Env (Tele Context σ P SM Conn Sub : Type) where
  Copy : Tele → σ → Tele × σ
  Ctx : Tele → σ → Context × σ
  NewCommonPublish : Conn → P
  pubApply : P → P → P
  connSubscribe : Conn → String → NatsMsgHandler σ → σ → (Sub × Option Error) × σ
  connQueueSubscribe :
    Conn → String → String → NatsMsgHandler σ → σ → (Sub × Option Error) × σ
  Hook : SM → Sub → Option Error → σ → (Sub × Option Error) × σ

section Conn

variable {Tele Context σ Resp P SM Conn Sub : Type}

/-- Method `Core.Use` (`conn.go`, lines 66-80): start from `NewCommonPublish(conn)` and
replace `pub` by `mw.apply(pub)` for each `mw` of `c.pubList`, in order. -/
def Core.Use (env : Env Tele Context σ P SM Conn Sub) (c : Core Tele Context σ Resp P SM)
    (conn : Conn) : ConnContext Tele Context σ Resp P SM Conn :=
  let pub := c.pubList.foldl (fun pub mw => env.pubApply mw pub) (env.NewCommonPublish conn)
  ⟨conn, pub, c⟩

/-- The loop of `Core.wrap` (`conn.go`, lines 84-86): `in = cb.apply(in)` for each
`cb` of `c.list`, in order. -/
def Core.chain (c : Core Tele Context σ Resp P SM) (h : MsgHandler Context σ) :
    MsgHandler Context σ :=
  c.list.foldl (fun acc cb => cb.apply acc) h

/-- Method `Core.wrap` (`conn.go`, lines 83-93): compose, then return the callback that,
on each invocation, calls `c.config.tele.Copy()`, calls `.Ctx()` on the copy, runs the
composed handler on `(cxt, msg)` and drops its error result. -/
def Core.wrap (env : Env Tele Context σ P SM Conn Sub) (c : Core Tele Context σ Resp P SM)
    (h : MsgHandler Context σ) : NatsMsgHandler σ :=
  let composed := c.chain h
  fun msg w =>
    let copy := env.Copy c.config.tele w
    let cxt := env.Ctx copy.1 copy.2
    (composed cxt.1 msg cxt.2).2

/-- Method `ConnContext.Subscribe` (`conn.go`, lines 121-125). -/
def ConnContext.Subscribe (env : Env Tele Context σ P SM Conn Sub)
    (c : ConnContext Tele Context σ Resp P SM Conn) (subj : String)
    (cb : MsgHandler Context σ) : σ → (Sub × Option Error) × σ :=
  fun w =>
    let r := env.connSubscribe c.conn subj (c.Core.wrap env cb) w
    env.Hook c.Core.subMeter r.1.1 r.1.2 r.2

/-- Method `ConnContext.QueueSubscribe` (`conn.go`, lines 131-135). -/
def ConnContext.QueueSubscribe (env : Env Tele Context σ P SM Conn Sub)
    (c : ConnContext Tele Context σ Resp P SM Conn) (subj queue : String)
    (cb : MsgHandler Context σ) : σ → (Sub × Option Error) × σ :=
  fun w =>
    let r := env.connQueueSubscribe c.conn subj queue (c.Core.wrap env cb) w
    env.Hook c.Core.subMeter r.1.1 r.1.2 r.2

/-- The function literal of `QueueSubscribeMW` (`conn.go`, lines 140-148): call
`next(ctx, msg.Subject, msg.Data)`; return `nil` when it failed or no post-hook is
configured; otherwise call the post-hook, drop its error and return `nil`. -/
def ConnContext.postFnHandler (c : ConnContext Tele Context σ Resp P SM Conn)
    (next : PostFn Context σ Resp) : MsgHandler Context σ :=
  fun ctx msg w =>
    let r := next ctx msg.Subject msg.Data w
    let resp := r.1.1
    let err := r.1.2
    match err, c.Core.config.postHook with
    | some _, _ => (none, r.2)
    | none, none => (none, r.2)
    | none, some postHook => (none, (postHook ctx msg resp r.2).2)

/-- Method `ConnContext.QueueSubscribeMW` (`conn.go`, lines 139-149). -/
def ConnContext.QueueSubscribeMW (env : Env Tele Context σ P SM Conn Sub)
    (c : ConnContext Tele Context σ Resp P SM Conn) (subj queue : String)
    (next : PostFn Context σ Resp) : σ → (Sub × Option Error) × σ :=
  c.QueueSubscribe env subj queue (c.postFnHandler next)

/-- Method `ConnContext.SubscribeMW` (`conn.go`, lines 153-155). -/
def ConnContext.SubscribeMW (env : Env Tele Context σ P SM Conn Sub)
    (c : ConnContext Tele Context σ Resp P SM Conn) (subj : String)
    (cb : PostFn Context σ Resp) : σ → (Sub × Option Error) × σ :=
  c.QueueSubscribeMW env subj "" cb

/-- Method `ConnContext.BuildWrappedHandler` (`conn.go`, lines 158-160). -/
def ConnContext.BuildWrappedHandler (env : Env Tele Context σ P SM Conn Sub)
    (c : ConnContext Tele Context σ Resp P SM Conn) (cb : MsgHandler Context σ) :
    NatsMsgHandler σ :=
  c.Core.wrap env cb

end Conn

/-! ## The singleton guard and `New` (`conn.go`, lines 11-63) -/

/-- A `sync.RWMutex`: whether the write lock is held and how many read locks are. Its
zero value is unlocked. -/
structure RWMutex where
  writer : Bool
  readers : Nat
deriving DecidableEq, Repr

/-- The package variable `mx` at process start: a zero-value `sync.RWMutex`. -/
def mx0 : RWMutex := ⟨false, 0⟩

/-- Method `(*sync.RWMutex).TryLock`: takes the write lock and reports `true` when the
mutex is neither write-locked nor read-locked; otherwise reports `false` and changes
nothing. It never blocks. -/
def RWMutex.TryLock (m : RWMutex) : Bool × RWMutex :=
  if m.writer = false ∧ m.readers = 0 then (true, ⟨true, 0⟩) else (false, m)

/-- Whether the mutex is held, by a writer or by readers: `TryLock` fails exactly then. -/
def RWMutex.held (m : RWMutex) : Bool := m.writer || m.readers != 0

/-- What a panicking call carries: `panic(v)` with an error value, the panic raised by
`tele.Panic(msg, tel.Error(err))`, or the run-time panic of a nil dereference (a field
read through a nil pointer, a method call on a nil interface value). -/
inductive Panic where
  | value (e : Error)
  | tele (msg : String) (e : Error)
  | nilDereference
deriving DecidableEq, Repr

/-- The functions `New` calls that are declared outside the two source files:
`newConfig(opts)`, `NewSubscriptionStatMetrics(opts...)` (two results, the meter and
an error), `cfg.DefaultPubMiddleware()` and `cfg.Middleware()`. -/
structure NewEnv (Opts Tele Context σ Resp P SM : Type) where
  newConfig : Opts → σ → config Tele Context σ Resp × σ
  NewSubscriptionStatMetrics : Opts → σ → (SM × Option Error) × σ
  DefaultPubMiddleware : config Tele Context σ Resp → σ → List P × σ
  Middleware : config Tele Context σ Resp → σ → List (Middleware Context σ) × σ

section New

variable {Opts Tele Context σ Resp P SM : Type}

/-- Function `New` (`conn.go`, lines 37-63), as a transformer of the package lock `mx`
and the world. A panic is the `Except.error` result; `cfg.tele.Panic` logs and
panics. -/
def New (ne : NewEnv Opts Tele Context σ Resp P SM) (opts : Opts) (mx : RWMutex) (w : σ) :
    Except Panic (Core Tele Context σ Resp P SM) × RWMutex × σ :=
  let t := mx.TryLock
  if !t.1 then
    (Except.error (Panic.value ErrMultipleMiddleWare), t.2, w)
  else
    let cfg := ne.newConfig opts w
    let sb := ne.NewSubscriptionStatMetrics opts cfg.2
    match sb.1.2 with
    | some err => (Except.error (Panic.tele "wrap connection" err), t.2, sb.2)
    | none =>
      let plist := ne.DefaultPubMiddleware cfg.1 sb.2
      let list := ne.Middleware cfg.1 plist.2
      (Except.ok ⟨cfg.1, list.1, plist.1, sb.1.1⟩, t.2, list.2)

/-- A sequence of `New` calls, one per element of `calls`, threading the lock and the
world; the results are listed in call order. -/
def runNew (ne : NewEnv Opts Tele Context σ Resp P SM) :
    List Opts → RWMutex → σ → List (Except Panic (Core Tele Context σ Resp P SM)) × RWMutex × σ
  | [], mx, w => ([], mx, w)
  | o :: os, mx, w =>
    let r := New ne o mx w
    let rs := runNew ne os r.2.1 r.2.2
    (r.1 :: rs.1, rs.2)

end New

/-- The functions and methods declared in the two source files. -/
inductive Fn where
  | New | Use | wrap | Conn | JetStream | Subscribe | QueueSubscribe | QueueSubscribeMW
  | SubscribeMW | BuildWrappedHandler | NewSubscriptionMetrics | Register | callback
deriving DecidableEq, Repr

/-- The effect of one call of a function of the package on the lock `mx`: `New` calls
`mx.TryLock()` (`conn.go`, line 39); no other line of the two files mentions `mx`. -/
def Fn.onLock : Fn → RWMutex → RWMutex
  | Fn.New, m => m.TryLock.2
  | _, m => m

/-! ## The subscription statistics (`hook_sub.go`) -/

/-- Conversion of an integer to `int64` (two's complement, 64 bits): the representative
of `x` modulo `2 ^ 64` in the range from `-2 ^ 63` to `2 ^ 63 - 1`. -/
def wrap64 (x : Int) : Int :=
  (x + 9223372036854775808) % 18446744073709551616 - 9223372036854775808

/-- The `+=` of two `int64` values. -/
def add64 (a b : Int) : Int := wrap64 (a + b)

/-- A value of type `*nats.Subscription`: `none` is the nil pointer, `some a` the
pointer to the subscription at address `a`. -/
abbrev SubPtr := Option Nat

/-- What the transport answers for the subscription at one address during a tick: the
field `Subject` and the results of `Pending()`, `Dropped()` and `Delivered()`, each
with its error. -/
structure Subscription where
  Subject : String
  Pending : Int × Int × Option Error
  Dropped : Int × Option Error
  Delivered : Int × Option Error
deriving DecidableEq, Repr

/-- A value of type `interface{}` as stored in the `sync.Map`: a
`*nats.Subscription` (nil included), or a value of another dynamic type. -/
inductive Any where
  | subscription (v : SubPtr)
  | other (tag : Nat)
deriving DecidableEq, Repr

/-- A `sync.Map`: its entries, at most one per key, listed in the order `Range` visits
them. Go leaves that order unspecified; the list fixes one. -/
abbrev SyncMap := List (Any × Any)

/-- Method `(*sync.Map).Store`: sets the value for a key, replacing the entry the key
has or adding one. -/
def SyncMap.Store : SyncMap → Any → Any → SyncMap
  | [], k, v => [(k, v)]
  | (k', v') :: rest, k, v =>
    if k' = k then (k, v) :: rest else (k', v') :: SyncMap.Store rest k v

/-- Method `(*sync.Map).Range`: calls `f` on each entry in turn and stops when `f`
returns `false`; a panic of `f` ends the traversal and is the panic of `Range`. The
state `α` stands for the variables the closure `f` captures. -/
def SyncMap.Range {α : Type} :
    SyncMap → (Any → Any → α → Except Panic (α × Bool)) → α → Except Panic α
  | [], _, a => Except.ok a
  | (k, v) :: rest, f, a =>
    match f k v a with
    | Except.error p => Except.error p
    | Except.ok r => if r.2 then SyncMap.Range rest f r.1 else Except.ok r.1

/-- The anonymous struct of the map `data` in `callback` (`hook_sub.go`, lines 56-61). -/
structure stat where
  msgs : Int
  bytes : Int
  dropped : Int
  count : Int
deriving DecidableEq, Repr

/-- A Go `map[string]stat`: its entries, at most one per key, listed in the order a
`range` loop visits them. Go leaves that order unspecified; the list takes the order
of insertion. -/
abbrev StatMap := List (String × stat)

/-- The lookup `data[k]` with its presence flag. -/
def StatMap.find : StatMap → String → Option stat
  | [], _ => none
  | (k', v) :: rest, k => if k' = k then some v else StatMap.find rest k

/-- The index expression `data[k]`: the zero value when the key is absent. -/
def StatMap.index (data : StatMap) (k : String) : stat :=
  (data.find k).getD ⟨0, 0, 0, 0⟩

/-- The assignment `data[k] = v`. -/
def StatMap.assign : StatMap → String → stat → StatMap
  | [], k, v => [(k, v)]
  | (k', v') :: rest, k, v =>
    if k' = k then (k, v) :: rest else (k', v') :: StatMap.assign rest k v

/-- The four metric-name constants that key `counters`. Their declarations are
outside the two source files; they are taken to be pairwise distinct. -/
inductive MetricName where
  | SubscriptionsPendingCount
  | SubscriptionsPendingBytes
  | SubscriptionsDroppedMsgs
  | SubscriptionCountMsgs
deriving DecidableEq, Repr

/-- An instrument option passed to `Gauge`. -/
inductive InstrumentOption where
  | WithUnitBytes
deriving DecidableEq, Repr

/-- The struct `SubscriptionMetric` (`hook_sub.go`, lines 14-17). A value of the
interface type `asyncint64.Gauge` is `none` for the nil interface value and `some g`
for the gauge `g`; `counters n` is the map lookup `s.counters[n]`, nil for a missing
key. -/
structure SubscriptionMetric (G : Type) where
  list : SyncMap
  counters : MetricName → Option G

/-- One completed call `gauge.Observe(ctx, value, Subject.String(subject))`. -/
structure Observation (G Context : Type) where
  gauge : G
  ctx : Context
  value : Int
  subject : String
deriving DecidableEq, Repr

/-- The meter of the configuration, as the two methods the constructor calls:
`AsyncInt64().Gauge(name, opts...)`, with its two results, and
`RegisterCallback(instruments, callback)`, the callback being the method value
`res.callback` of the aggregator just built. -/
structure Meter (G σ : Type) where
  Gauge : MetricName → List InstrumentOption → σ → (Option G × Option Error) × σ
  RegisterCallback : List (Option G) → SubscriptionMetric G → σ → Option Error × σ

/-- The call `errors.WithMessagef(err, msg)`. -/
def WithMessagef (err : Error) (msg : String) : Error := msg ++ ": " ++ err

section Stat

variable {G Context σ : Type}

/-- Function `NewSubscriptionMetrics` (`hook_sub.go`, lines 19-45), for the meter of
`newConfig(opts)`. The error of each `Gauge` call is dropped (`msgs, _ := ...`); only
the error of `RegisterCallback` is returned. The first result is `none` for `nil`. -/
def NewSubscriptionMetrics (meter : Meter G σ) (w : σ) :
    (Option (SubscriptionMetric G) × Option Error) × σ :=
  let r1 := meter.Gauge MetricName.SubscriptionsPendingCount [] w
  let r2 := meter.Gauge MetricName.SubscriptionsPendingBytes [InstrumentOption.WithUnitBytes] r1.2
  let r3 := meter.Gauge MetricName.SubscriptionsDroppedMsgs [] r2.2
  let r4 := meter.Gauge MetricName.SubscriptionCountMsgs [] r3.2
  let msgs := r1.1.1
  let bs := r2.1.1
  let dd := r3.1.1
  let cc := r4.1.1
  let res : SubscriptionMetric G :=
    ⟨[], fun n =>
      match n with
      | MetricName.SubscriptionsPendingCount => msgs
      | MetricName.SubscriptionsPendingBytes => bs
      | MetricName.SubscriptionsDroppedMsgs => dd
      | MetricName.SubscriptionCountMsgs => cc⟩
  let r5 := meter.RegisterCallback [msgs, bs, dd, cc] res r4.2
  match r5.1 with
  | some err => ((none, some (WithMessagef err "reggister callback")), r5.2)
  | none => ((some res, none), r5.2)

/-- Method `SubscriptionMetric.Register` (`hook_sub.go`, lines 47-51):
`s.list.Store(v, v)` for each argument, a nil pointer included. -/
def SubscriptionMetric.Register (s : SubscriptionMetric G) (sub : List SubPtr) :
    SubscriptionMetric G :=
  sub.foldl (fun s v => ⟨s.list.Store (Any.subscription v) (Any.subscription v), s.counters⟩) s

/-- The body of the closure given to `Range` (`hook_sub.go`, lines 63-81) on one
entry, `data` being the captured map. A value that is not a `*nats.Subscription` is
skipped. A nil `*nats.Subscription` passes the type assertion; its three reads return
without dereferencing it, and the field read `v.Subject` (line 73) then panics. On any
other subscription the counters are read, the three errors dropped, and the values
added, converted with `int64(...)` where the source converts, to `data[v.Subject]`.
The closure returns `true` whenever it returns. -/
def rangeBody (heap : Nat → Subscription) (_key value : Any) (data : StatMap) :
    Except Panic (StatMap × Bool) :=
  match value with
  | Any.other _ => Except.ok (data, true)
  | Any.subscription none => Except.error Panic.nilDereference
  | Any.subscription (some a) =>
    let v := heap a
    let pMsg := v.Pending.1
    let pBytes := v.Pending.2.1
    let dropped := v.Dropped.1
    let count := v.Delivered.1
    let vc := data.index v.Subject
    let vc : stat :=
      ⟨add64 vc.msgs (wrap64 pMsg), add64 vc.bytes (wrap64 pBytes),
        add64 vc.dropped (wrap64 dropped), add64 vc.count count⟩
    Except.ok (data.assign v.Subject vc, true)

/-- The first half of `callback` (`hook_sub.go`, lines 56-81): the map `data` after
the traversal of `s.list`, or the panic that ended it. `heap` gives the state of the
subscription at each address. -/
def SubscriptionMetric.collect (s : SubscriptionMetric G) (heap : Nat → Subscription) :
    Except Panic StatMap :=
  s.list.Range (rangeBody heap) []

/-- One call `gauge.Observe(ctx, value, Subject.String(subject))` after the completed
calls `done`: on a nil gauge the call panics, on a gauge it is completed. -/
def Observe (gauge : Option G) (ctx : Context) (value : Int) (subject : String)
    (done : List (Observation G Context)) : List (Observation G Context) × Option Panic :=
  match gauge with
  | none => (done, some Panic.nilDereference)
  | some g => (done ++ [⟨g, ctx, value, subject⟩], none)

/-- Sequencing of two statements: the second runs after the first unless the first
panicked. -/
def andThen (first : List (Observation G Context) × Option Panic)
    (second : List (Observation G Context) → List (Observation G Context) × Option Panic) :
    List (Observation G Context) × Option Panic :=
  match first.2 with
  | some p => (first.1, some p)
  | none => second first.1

/-- The four `Observe` calls of one iteration of the last loop (`hook_sub.go`,
lines 84-87), in order. -/
def SubscriptionMetric.observe (s : SubscriptionMetric G) (ctx : Context) (k : String)
    (v : stat) (done : List (Observation G Context)) :
    List (Observation G Context) × Option Panic :=
  andThen
    (andThen
      (andThen (Observe (s.counters MetricName.SubscriptionsPendingCount) ctx v.msgs k done)
        (Observe (s.counters MetricName.SubscriptionsPendingBytes) ctx v.bytes k))
      (Observe (s.counters MetricName.SubscriptionsDroppedMsgs) ctx v.dropped k))
    (Observe (s.counters MetricName.SubscriptionCountMsgs) ctx v.count k)

/-- The last loop of `callback` (`hook_sub.go`, lines 83-88) over the entries of
`data`. -/
def SubscriptionMetric.emit (s : SubscriptionMetric G) (ctx : Context) :
    StatMap → List (Observation G Context) → List (Observation G Context) × Option Panic
  | [], done => (done, none)
  | (k, v) :: rest, done => andThen (s.observe ctx k v done) (s.emit ctx rest)

/-- Method `SubscriptionMetric.callback` (`hook_sub.go`, lines 53-89): the `Observe`
calls one run completes, in the order they are made, and the panic that ended the
run, if any. -/
def SubscriptionMetric.callback (s : SubscriptionMetric G) (heap : Nat → Subscription)
    (ctx : Context) : List (Observation G Context) × Option Panic :=
  match s.collect heap with
  | Except.error p => ([], some p)
  | Except.ok data => s.emit ctx data []

end Stat

/-! ## Handlers and units that record what they do

Instances of the handler and middleware types, used to observe the number and the
order of calls. -/

section Probes

variable {Context σ Resp : Type}

/-- A middleware unit that runs its own step and then calls the handler it wraps. -/
def stepUnit (step : σ → σ) : Middleware Context σ :=
  ⟨fun next ctx msg w => next ctx msg (step w)⟩

/-- A unit whose step appends its tag to a log. -/
def logUnit (tag : String) : Middleware Context (List String) :=
  stepUnit (fun log => log ++ [tag])

/-- A base handler that appends `"baseHandler"` to the log and returns `err`. -/
def logBase (err : Option Error) : MsgHandler Context (List String) :=
  fun _ _ log => (err, log ++ ["baseHandler"])

/-- A call made by the legacy adapter, with its arguments. -/
inductive Call (Context Resp : Type) where
  | next (ctx : Context) (subject : String) (data : List Nat)
  | postHook (ctx : Context) (msg : Msg) (resp : Resp)
deriving DecidableEq, Repr

/-- A post-function that records each call it receives and answers `f`. -/
def tracedNext (f : Context → String → List Nat → Resp × Option Error) :
    PostFn Context (List (Call Context Resp)) Resp :=
  fun ctx subject data tr => (f ctx subject data, tr ++ [Call.next ctx subject data])

/-- A post-hook that records each call it receives and answers `g`. -/
def tracedHook (g : Context → Msg → Resp → Option Error) :
    PostHook Context (List (Call Context Resp)) Resp :=
  fun ctx msg resp tr => (g ctx msg resp, tr ++ [Call.postHook ctx msg resp])

end Probes

/-! ## Concrete collaborators for the closed instances -/

/-- A telemetry root whose `Copy().Ctx()` is the context `7`, over a transport and a
meter hook that do nothing. -/
def env0 (σ : Type) : Env Unit Nat σ Nat Unit Unit Unit where
  Copy := fun t w => (t, w)
  Ctx := fun _ w => (7, w)
  NewCommonPublish := fun _ => 0
  pubApply := fun mw pub => 10 * pub + mw
  connSubscribe := fun _ _ _ w => (((), none), w)
  connQueueSubscribe := fun _ _ _ _ w => (((), none), w)
  Hook := fun _ sub err w => ((sub, err), w)

/-- A telemetry root that counts its copies in the first component of the world: the
copy made when `n` copies exist is the telemetry `n + 1`, and the context of the
telemetry `t` is `t`. -/
def envFresh : Env Nat Nat (Nat × List (Nat × Msg)) Nat Unit Unit Unit where
  Copy := fun _ w => (w.1 + 1, (w.1 + 1, w.2))
  Ctx := fun t w => (t, w)
  NewCommonPublish := fun _ => 0
  pubApply := fun mw pub => 10 * pub + mw
  connSubscribe := fun _ _ _ w => (((), none), w)
  connQueueSubscribe := fun _ _ _ _ w => (((), none), w)
  Hook := fun _ sub err w => ((sub, err), w)

/-- A handler over the world of `envFresh` that records the context and the message
of each of its invocations and returns `err`. -/
def recordFresh (err : Option Error) : MsgHandler Nat (Nat × List (Nat × Msg)) :=
  fun ctx msg w => (err, (w.1, w.2 ++ [(ctx, msg)]))

/-- A unit that calls the handler it wraps on the same context and message and
returns what it returns. -/
def passUnit {Context σ : Type} : Middleware Context σ := ⟨fun next => next⟩

/-- A unit that calls the handler it wraps and replaces its result by `err`. -/
def maskUnit {Context σ : Type} (err : Option Error) : Middleware Context σ :=
  ⟨fun next ctx msg w => (err, (next ctx msg w).2)⟩

/-- A `Core` over the telemetry root `0` of `envFresh` with the handler units
`list`. -/
def coreFresh (list : List (Middleware Nat (Nat × List (Nat × Msg)))) :
    Core Nat Nat (Nat × List (Nat × Msg)) Nat Nat Unit :=
  ⟨⟨0, none⟩, list, [], ()⟩

/-- A `Core` with the handler units `list` and the publish units `pubList`. -/
def core0 {σ : Type} (list : List (Middleware Nat σ)) (pubList : List Nat)
    (postHook : Option (PostHook Nat σ Nat)) : Core Unit Nat σ Nat Nat Unit :=
  ⟨⟨(), postHook⟩, list, pubList, ()⟩

/-- A message on subject `"x"`. -/
def msg0 : Msg := ⟨"x", "", [1, 2, 3]⟩

/-- The panic of a result, `none` when the call returned. -/
def panicOf {α : Type} (r : Except Panic α) : Option Panic :=
  match r with
  | Except.ok _ => none
  | Except.error p => some p

/-- Constructors for `New` that record their call in the world (a log) and return
empty middleware lists; `sb` is what `NewSubscriptionStatMetrics` returns. -/
def newEnv0 (sb : Unit × Option Error) : NewEnv Unit Unit Nat (List String) Nat Nat Unit where
  newConfig := fun _ w => (⟨(), none⟩, w ++ ["newConfig"])
  NewSubscriptionStatMetrics := fun _ w => (sb, w ++ ["NewSubscriptionStatMetrics"])
  DefaultPubMiddleware := fun _ w => ([], w ++ ["DefaultPubMiddleware"])
  Middleware := fun _ w => ([], w ++ ["Middleware"])

/-- A meter on which the creation of every gauge fails, returning a nil gauge, and
the registration of the callback succeeds. -/
def failingGauges : Meter Nat Unit where
  Gauge := fun _ _ w => ((none, some "instrument creation failed"), w)
  RegisterCallback := fun _ _ w => (none, w)

/-- The gauge a `loggingMeter` creates under each name. -/
def gaugeOf : MetricName → Nat
  | MetricName.SubscriptionsPendingCount => 1
  | MetricName.SubscriptionsPendingBytes => 2
  | MetricName.SubscriptionsDroppedMsgs => 3
  | MetricName.SubscriptionCountMsgs => 4

/-- A meter that logs its calls in the world. It creates the gauge `gaugeOf n` under
the name `n`, reporting an error alongside the gauge when an option is passed, and
registers a callback with the error `registerErr` when it is given the four gauges in
the order of their creation, with another error otherwise. -/
def loggingMeter (registerErr : Option Error) : Meter Nat (List String) where
  Gauge := fun n opts w =>
    ((some (gaugeOf n), if opts = [] then none else some "unit not supported"),
      w ++ ["Gauge"])
  RegisterCallback := fun gs _ w =>
    (if gs = [some 1, some 2, some 3, some 4] then registerErr else some "other instruments",
      w ++ ["RegisterCallback"])

/-- The meter `meter` with the error of every `Gauge` call replaced by `nil`. -/
def Meter.withoutGaugeErrors {G σ : Type} (meter : Meter G σ) : Meter G σ where
  Gauge := fun n o w => (((meter.Gauge n o w).1.1, none), (meter.Gauge n o w).2)
  RegisterCallback := meter.RegisterCallback

/-- The aggregator with an empty registry that holds the gauges `g1`, `g2`, `g3` and
`g4` under the pending-count, pending-bytes, dropped and delivered names. -/
def gaugesStored {G : Type} (g1 g2 g3 g4 : Option G) : SubscriptionMetric G :=
  ⟨[], fun n =>
    match n with
    | MetricName.SubscriptionsPendingCount => g1
    | MetricName.SubscriptionsPendingBytes => g2
    | MetricName.SubscriptionsDroppedMsgs => g3
    | MetricName.SubscriptionCountMsgs => g4⟩

/-! ## The statistics in the words of the specification -/

/-- Whether the registry holds a nil `*nats.Subscription` as a value. -/
def SyncMap.holdsNil (m : SyncMap) : Bool :=
  decide (Any.subscription none ∈ m.map Prod.snd)

/-- The registered subscriptions: the addresses of the non-nil handles held as values
of the registry, in traversal order. -/
def SyncMap.subscriptions (m : SyncMap) : List Nat :=
  m.filterMap (fun e =>
    match e.2 with
    | Any.subscription (some a) => some a
    | Any.subscription none => none
    | Any.other _ => none)

/-- The sum of `int64` values, as an `int64`. -/
def sum64 (l : List Int) : Int := wrap64 l.sum

/-- The elementwise sums of the four counters over the subscriptions `vs`. -/
def sumOf (vs : List Subscription) : stat :=
  ⟨sum64 (vs.map (fun v => v.Pending.1)), sum64 (vs.map (fun v => v.Pending.2.1)),
    sum64 (vs.map (fun v => v.Dropped.1)), sum64 (vs.map (fun v => v.Delivered.1))⟩

/-- The elementwise sums of the four counters over `vs`, as unbounded integers. -/
def exactSumOf (vs : List Subscription) : stat :=
  ⟨(vs.map (fun v => v.Pending.1)).sum, (vs.map (fun v => v.Pending.2.1)).sum,
    (vs.map (fun v => v.Dropped.1)).sum, (vs.map (fun v => v.Delivered.1)).sum⟩

/-- Whether an integer is an `int64` value. -/
def fits64 (x : Int) : Bool :=
  decide (-9223372036854775808 ≤ x) && decide (x < 9223372036854775808)

/-- Whether the four fields of an entry are `int64` values. -/
def stat.fits (a : stat) : Bool :=
  fits64 a.msgs && fits64 a.bytes && fits64 a.dropped && fits64 a.count

/-- The registered subscriptions whose `Subject` is `subj`, with their state. -/
def SubscriptionMetric.subscriptionsOn {G : Type} (s : SubscriptionMetric G)
    (heap : Nat → Subscription) (subj : String) : List Subscription :=
  (s.list.subscriptions.map heap).filter (fun v => decide (v.Subject = subj))

/-- The subjects of the registered subscriptions, one per subscription. -/
def SubscriptionMetric.subjects {G : Type} (s : SubscriptionMetric G)
    (heap : Nat → Subscription) : List String :=
  s.list.subscriptions.map (fun a => (heap a).Subject)

/-- The aggregate that one run of `callback` builds for the subject `subj`: the entry
of `subj` in the map `data` after the traversal (`none` when `subj` has no entry), or
the panic that ended the traversal. -/
def SubscriptionMetric.aggregate {G : Type} (s : SubscriptionMetric G)
    (heap : Nat → Subscription) (subj : String) : Except Panic (Option stat) :=
  match s.collect heap with
  | Except.error p => Except.error p
  | Except.ok data => Except.ok (data.find subj)

/-- The subscription `v` with the three errors of its reads replaced by `e`. -/
def Subscription.withErrors (v : Subscription)
    (e : Option Error × Option Error × Option Error) : Subscription :=
  ⟨v.Subject, (v.Pending.1, v.Pending.2.1, e.1), (v.Dropped.1, e.2.1), (v.Delivered.1, e.2.2)⟩

/-- The counters of `v` added to the entry `vc` (`hook_sub.go`, lines 74-77). -/
def stat.add (vc : stat) (v : Subscription) : stat :=
  ⟨add64 vc.msgs (wrap64 v.Pending.1), add64 vc.bytes (wrap64 v.Pending.2.1),
    add64 vc.dropped (wrap64 v.Dropped.1), add64 vc.count v.Delivered.1⟩

/-- The update of `data` for one subscription (`hook_sub.go`, lines 73-79). -/
def StatMap.bump (d : StatMap) (v : Subscription) : StatMap :=
  d.assign v.Subject ((d.index v.Subject).add v)

/-- The four fields of an entry, each converted to `int64`. -/
def stat.wrap (a : stat) : stat :=
  ⟨wrap64 a.msgs, wrap64 a.bytes, wrap64 a.dropped, wrap64 a.count⟩

/-- The map `data` after a traversal that meets no nil handle. -/
def SubscriptionMetric.sums {G : Type} (s : SubscriptionMetric G)
    (heap : Nat → Subscription) : StatMap :=
  (s.list.subscriptions.map heap).foldl StatMap.bump []

/-- The four observations of the entry `v` of the subject `k` on the gauges `g`. -/
def observed {G Context : Type} (g : MetricName → G) (ctx : Context) (k : String) (v : stat) :
    List (Observation G Context) :=
  [⟨g MetricName.SubscriptionsPendingCount, ctx, v.msgs, k⟩,
   ⟨g MetricName.SubscriptionsPendingBytes, ctx, v.bytes, k⟩,
   ⟨g MetricName.SubscriptionsDroppedMsgs, ctx, v.dropped, k⟩,
   ⟨g MetricName.SubscriptionCountMsgs, ctx, v.count, k⟩]

/-- A state of the transport: subscriptions `1` (S1) and `2` (S2) on subject `"x"`,
subscription `3` on subject `"y"`, and at every other address a closed subscription
on `"x"` whose reads return `-1` with an error. -/
def heap0 : Nat → Subscription
  | 1 => ⟨"x", (5, 500, none), (1, none), (10, none)⟩
  | 2 => ⟨"x", (3, 300, none), (0, none), (7, none)⟩
  | 3 => ⟨"y", (2, 20, none), (4, none), (9, none)⟩
  | _ => ⟨"x", (-1, -1, some "nats: invalid subscription"),
      (-1, some "nats: invalid subscription"), (-1, some "nats: invalid subscription")⟩

/-- An aggregator with an empty registry whose four gauges are non-nil and identified
by their metric names. -/
def meter0 : SubscriptionMetric MetricName := ⟨[], fun n => some n⟩

/-- An aggregator with an empty registry whose four gauges are nil. -/
def nilGauges : SubscriptionMetric MetricName := ⟨[], fun _ => none⟩

/-- An aggregator with an empty registry whose pending-count gauge alone is non-nil. -/
def oneGauge : SubscriptionMetric MetricName :=
  ⟨[], fun n => if n = MetricName.SubscriptionsPendingCount then some n else none⟩

/-! ## The handler chain -/

section ChainLemmas

variable {Tele Context σ Resp P SM Conn Sub : Type}

theorem foldl_apply_eq_foldr_reverse (ms : List (Middleware Context σ))
    (h : MsgHandler Context σ) :
    ms.foldl (fun acc cb => cb.apply acc) h
      = ms.reverse.foldr (fun cb acc => cb.apply acc) h := by
  rw [List.foldr_reverse]

theorem chain_logUnits (tags : List String) (ctx : Context) (msg : Msg) :
    ∀ (h : MsgHandler Context (List String)) (log : List String),
      ((tags.map logUnit).foldl (fun acc cb => cb.apply acc) h) ctx msg log
        = h ctx msg (log ++ tags.reverse) := by
  induction tags using List.reverseRecOn with
  | nil => intro h log; simp
  | append_singleton ts t ih =>
    intro h log
    simp only [List.map_append, List.map_cons, List.map_nil, List.foldl_append,
      List.foldl_cons, List.foldl_nil, logUnit, stepUnit, List.reverse_append,
      List.reverse_cons, List.reverse_nil, List.nil_append, List.singleton_append]
    have := ih h (log ++ [t])
    simp only [logUnit, stepUnit] at this
    rw [this]
    simp

end ChainLemmas

/-! ## Claims about `conn.go` -/

section ConnClaims

variable {Tele Context σ Resp P SM Conn Sub : Type}

/-- C1. The callback of `Core.wrap(h)` runs `mn.apply(...(m2.apply(m1.apply(h)))...)` for
the configured list `[m1, ..., mn]`: the chain of the empty list is `h`, configuring
one more unit `m` after `ms` puts `m` outermost, and `[A, B, C]` gives
`C.apply(B.apply(A.apply(h)))`. With units that run their own step and then call the
handler they wrap, one invocation runs the steps in the reverse of the configuration
order and then the base handler: for `[A, B, C]` the order is `C, B, A, baseHandler`. -/
theorem wrap_applies_units_in_configuration_order
    (env : Env Tele Context σ P SM Conn Sub) (c : Core Tele Context σ Resp P SM)
    (h : MsgHandler Context σ) :
    (∀ msg w, c.wrap env h msg w
        = ((c.list.reverse.foldr (fun m acc => m.apply acc) h)
            (env.Ctx (env.Copy c.config.tele w).1 (env.Copy c.config.tele w).2).1 msg
            (env.Ctx (env.Copy c.config.tele w).1 (env.Copy c.config.tele w).2).2).2)
    ∧ (∀ cfg pl (sm : SM), Core.chain (⟨cfg, [], pl, sm⟩ : Core Tele Context σ Resp P SM) h = h)
    ∧ (∀ cfg ms m pl (sm : SM),
        Core.chain (⟨cfg, ms ++ [m], pl, sm⟩ : Core Tele Context σ Resp P SM) h
          = m.apply (Core.chain (⟨cfg, ms, pl, sm⟩ : Core Tele Context σ Resp P SM) h))
    ∧ (∀ cfg A B C pl (sm : SM),
        Core.chain (⟨cfg, [A, B, C], pl, sm⟩ : Core Tele Context σ Resp P SM) h
          = C.apply (B.apply (A.apply h)))
    ∧ (∀ (envL : Env Tele Context (List String) P SM Conn Sub)
        (cfg : config Tele Context (List String) Resp) (tags : List String) pl (sm : SM)
        (err : Option Error) (msg : Msg) (log : List String),
        Core.wrap envL (⟨cfg, tags.map logUnit, pl, sm⟩ : Core Tele Context _ Resp P SM)
            (logBase err) msg log
          = (envL.Ctx (envL.Copy cfg.tele log).1 (envL.Copy cfg.tele log).2).2
              ++ tags.reverse ++ ["baseHandler"])
    ∧ Core.wrap (env0 (List String)) (core0 [logUnit "A", logUnit "B", logUnit "C"] [] none)
          (logBase none) msg0 []
        = ["C", "B", "A", "baseHandler"] := by
  refine ⟨?_, ?_, ?_, ?_, ?_, ?_⟩
  · intro msg w
    simp only [Core.wrap, Core.chain, foldl_apply_eq_foldr_reverse]
  · intro cfg pl sm
    rfl
  · intro cfg ms m pl sm
    simp [Core.chain, List.foldl_append]
  · intro cfg A B C pl sm
    rfl
  · intro envL cfg tags pl sm err msg log
    simp only [Core.wrap, Core.chain]
    rw [chain_logUnits]
    simp [logBase]
  · decide

/-- C8. One invocation of the callback of `Core.wrap(h)` calls `tele.Copy()` on the
telemetry root, `.Ctx()` on that copy, and then the middleware-composed handler, the
fold of `apply` over the configured list, once, on that context and on `msg` itself,
in the world these two calls left; it keeps only the effect of the run. A unit
configured last receives that context and `msg`. Two handlers whose composed chains
have the same effects and differ only in the error they return give the same
callback, and so do two last-configured units that differ only in the error they
return. -/
theorem wrap_runs_chain_once_and_discards_error
    (env : Env Tele Context σ P SM Conn Sub) (c : Core Tele Context σ Resp P SM)
    (h h' : MsgHandler Context σ)
    (hsame : ∀ ctx msg w,
      (c.list.foldl (fun acc cb => cb.apply acc) h ctx msg w).2
        = (c.list.foldl (fun acc cb => cb.apply acc) h' ctx msg w).2) :
    (∀ msg w, c.wrap env h msg w
        = (c.list.foldl (fun acc cb => cb.apply acc) h
            (env.Ctx (env.Copy c.config.tele w).1 (env.Copy c.config.tele w).2).1 msg
            (env.Ctx (env.Copy c.config.tele w).1 (env.Copy c.config.tele w).2).2).2)
    ∧ c.wrap env h = c.wrap env h'
    ∧ (∀ cfg ms (m : Middleware Context σ) pl (sm : SM) msg w,
        Core.wrap env (⟨cfg, ms ++ [m], pl, sm⟩ : Core Tele Context σ Resp P SM) h msg w
          = (m.apply (ms.foldl (fun acc cb => cb.apply acc) h)
              (env.Ctx (env.Copy cfg.tele w).1 (env.Copy cfg.tele w).2).1 msg
              (env.Ctx (env.Copy cfg.tele w).1 (env.Copy cfg.tele w).2).2).2)
    ∧ (∀ (e e' : Option Error) cfg ms pl (sm : SM),
        Core.wrap env (⟨cfg, ms ++ [maskUnit e], pl, sm⟩ : Core Tele Context σ Resp P SM) h
          = Core.wrap env (⟨cfg, ms ++ [maskUnit e'], pl, sm⟩ : Core Tele Context σ Resp P SM) h)
    ∧ (∀ (e : Option Error) (g : Context → Msg → σ → σ) cfg pl (sm : SM) msg w,
        Core.wrap env (⟨cfg, [], pl, sm⟩ : Core Tele Context σ Resp P SM)
            (fun ctx m v => (e, g ctx m v)) msg w
          = g (env.Ctx (env.Copy cfg.tele w).1 (env.Copy cfg.tele w).2).1 msg
              (env.Ctx (env.Copy cfg.tele w).1 (env.Copy cfg.tele w).2).2)
    ∧ Core.wrap envFresh (coreFresh [passUnit, maskUnit none]) (recordFresh (some "boom")) msg0
          (0, [])
        = (1, [(1, msg0)])
    ∧ Core.wrap envFresh (coreFresh [passUnit, maskUnit none]) (recordFresh (some "boom")) msg0
          (Core.wrap envFresh (coreFresh [passUnit, maskUnit none]) (recordFresh (some "boom"))
            msg0 (0, []))
        = (2, [(1, msg0), (2, msg0)]) := by
  refine ⟨fun _ _ => rfl, ?_, ?_, ?_, fun _ _ _ _ _ _ _ => rfl, by decide, by decide⟩
  · funext msg w
    exact hsame _ msg _
  · intro cfg ms m pl sm msg w
    simp only [Core.wrap, Core.chain, List.foldl_append, List.foldl_cons, List.foldl_nil]
  · intro e e' cfg ms pl sm
    funext msg w
    simp only [Core.wrap, Core.chain, List.foldl_append, List.foldl_cons, List.foldl_nil,
      maskUnit]

/-- Witness of C8: under a unit that leaves the mark `(0, msg0)` and a pass-through unit,
a recording handler that fails and one that succeeds give the same callback; one
invocation makes one copy of the telemetry root, runs the marking unit and records
exactly one call, with the context of that copy and the message. -/
theorem wrap_runs_chain_once_and_discards_error_witness :
    Core.wrap envFresh (coreFresh [stepUnit (fun w => (w.1, w.2 ++ [(0, msg0)])), passUnit])
          (recordFresh (some "boom"))
        = Core.wrap envFresh
            (coreFresh [stepUnit (fun w => (w.1, w.2 ++ [(0, msg0)])), passUnit])
            (recordFresh none)
    ∧ Core.wrap envFresh (coreFresh [stepUnit (fun w => (w.1, w.2 ++ [(0, msg0)])), passUnit])
          (recordFresh (some "boom")) msg0 (0, [])
        = (1, [(0, msg0), (1, msg0)]) :=
  ⟨(wrap_runs_chain_once_and_discards_error envFresh
      (coreFresh [stepUnit (fun w => (w.1, w.2 ++ [(0, msg0)])), passUnit])
      (recordFresh (some "boom")) (recordFresh none) (fun _ _ _ => rfl)).2.1, by decide⟩

/-- C9. The publisher bound by `Core.Use(conn)` is
`pn.apply(...(p1.apply(NewCommonPublish(conn)))...)` for the list `[p1, ..., pn]` of
`Core.pubList`: the base publisher for the empty list, the last-configured unit
outermost. The connection context carries `conn` and the same `Core`. -/
theorem use_binds_publish_chain
    (env : Env Tele Context σ P SM Conn Sub) (c : Core Tele Context σ Resp P SM)
    (conn : Conn) :
    (c.Use env conn).Publish
        = c.pubList.reverse.foldr (fun mw pub => env.pubApply mw pub)
            (env.NewCommonPublish conn)
    ∧ (c.Use env conn).conn = conn
    ∧ (c.Use env conn).Core = c
    ∧ (c.pubList = [] → (c.Use env conn).Publish = env.NewCommonPublish conn)
    ∧ (∀ cfg l ps p (sm : SM),
        (Core.Use env (⟨cfg, l, ps ++ [p], sm⟩ : Core Tele Context σ Resp P SM) conn).Publish
          = env.pubApply p
              (Core.Use env (⟨cfg, l, ps, sm⟩ : Core Tele Context σ Resp P SM) conn).Publish) := by
  refine ⟨?_, rfl, rfl, ?_, ?_⟩
  · simp only [Core.Use, List.foldr_reverse]
  · intro hnil
    simp [Core.Use, hnil]
  · intro cfg l ps p sm
    simp [Core.Use, List.foldl_append]

/-- Witness of C9: with the publish units `[1, 2, 3]` over the base publisher `0`, where
applying unit `m` to `p` gives `10 * p + m`, the bound publisher is `123`; with no
unit it is the base publisher. -/
theorem use_binds_publish_chain_witness :
    (Core.Use (env0 Unit) (core0 [] [1, 2, 3] none) ()).Publish = 123
    ∧ (Core.Use (env0 Unit) (core0 [] [] none) ()).Publish = 0 :=
  ⟨by decide,
   (use_binds_publish_chain (env0 Unit) (core0 [] [] none) ()).2.2.2.1 rfl⟩

/-- C4. The handler that `QueueSubscribeMW` and `SubscribeMW` hand to
`QueueSubscribe` calls `next` once with `(ctx, msg.Subject, msg.Data)` and returns no
error; it then calls the post-hook, once and with `(ctx, msg, resp)`, exactly when
`next` returned no error and a post-hook is configured, and drops the error of the
post-hook. -/
theorem postFn_handler_swallows_errors
    (env : Env Tele Context σ P SM Conn Sub) (c : ConnContext Tele Context σ Resp P SM Conn)
    (next : PostFn Context σ Resp) (ctx : Context) (msg : Msg) (w : σ) :
    (∀ subj queue, c.QueueSubscribeMW env subj queue next
        = c.QueueSubscribe env subj queue (c.postFnHandler next))
    ∧ (∀ subj, c.SubscribeMW env subj next
        = c.QueueSubscribe env subj "" (c.postFnHandler next))
    ∧ (c.postFnHandler next ctx msg w).1 = none
    ∧ ((next ctx msg.Subject msg.Data w).1.2 ≠ none →
        (c.postFnHandler next ctx msg w).2 = (next ctx msg.Subject msg.Data w).2)
    ∧ (c.Core.config.postHook = none →
        (c.postFnHandler next ctx msg w).2 = (next ctx msg.Subject msg.Data w).2)
    ∧ (∀ hook, (next ctx msg.Subject msg.Data w).1.2 = none →
        c.Core.config.postHook = some hook →
        (c.postFnHandler next ctx msg w).2
          = (hook ctx msg (next ctx msg.Subject msg.Data w).1.1
              (next ctx msg.Subject msg.Data w).2).2)
    ∧ (∀ (conn : Conn) (pub : P) (tele : Tele) (l : List (Middleware Context _)) pl (sm : SM)
        (f : Context → String → List Nat → Resp × Option Error)
        (g : Option (Context → Msg → Resp → Option Error)) (tr : List (Call Context Resp)),
        ConnContext.postFnHandler
            (⟨conn, pub, ⟨⟨tele, g.map tracedHook⟩, l, pl, sm⟩⟩ :
              ConnContext Tele Context _ Resp P SM Conn)
            (tracedNext f) ctx msg tr
          = (none, tr ++ [Call.next ctx msg.Subject msg.Data]
              ++ (if (f ctx msg.Subject msg.Data).2 = none ∧ g.isSome then
                    [Call.postHook ctx msg (f ctx msg.Subject msg.Data).1]
                  else [])))
    ∧ ConnContext.postFnHandler (Core.Use (env0 _) (core0 [] []
          (some (tracedHook (fun _ _ _ => some "hook failed")))) ())
        (tracedNext (fun _ _ _ => (5, some "post failed"))) 7 msg0 []
        = (none, [Call.next 7 "x" [1, 2, 3]])
    ∧ ConnContext.postFnHandler (Core.Use (env0 _) (core0 [] []
          (some (tracedHook (fun _ _ _ => some "hook failed")))) ())
        (tracedNext (fun _ _ _ => (5, none))) 7 msg0 []
        = (none, [Call.next 7 "x" [1, 2, 3], Call.postHook 7 msg0 5]) := by
  refine ⟨fun _ _ => rfl, fun _ => rfl, ?_, ?_, ?_, ?_, ?_, by decide, by decide⟩
  · simp only [ConnContext.postFnHandler]
    split <;> rfl
  · intro hne
    simp only [ConnContext.postFnHandler]
    split
    · rfl
    · rfl
    · rename_i herr _
      exact absurd herr hne
  · intro hnone
    simp only [ConnContext.postFnHandler]
    split
    · rfl
    · rfl
    · rename_i _ hhook
      rw [hnone] at hhook
      cases hhook
  · intro hook herr hhook
    simp only [ConnContext.postFnHandler]
    split
    · rename_i e herr'
      rw [herr] at herr'
      cases herr'
    · rename_i _ hhook'
      rw [hhook] at hhook'
      cases hhook'
    · rename_i hk _ hhook'
      rw [hhook] at hhook'
      cases hhook'
      rfl
  · intro conn pub tele l pl sm f g tr
    cases g with
    | none =>
      simp only [ConnContext.postFnHandler, tracedNext, Option.map_none']
      cases hf : (f ctx msg.Subject msg.Data).2 <;> simp
    | some g =>
      simp only [ConnContext.postFnHandler, tracedNext, Option.map_some']
      cases hf : (f ctx msg.Subject msg.Data).2 <;> simp [tracedHook]

/-- Witness of C4: a post-function that fails with `"post failed"` under a configured
post-hook, a post-function that succeeds with no post-hook configured, and a
post-function that succeeds under a post-hook that fails: the world after the handler
is the world after the post-function in the first two cases, and the world after the
post-hook in the third. -/
theorem postFn_handler_swallows_errors_witness :
    (ConnContext.postFnHandler (Core.Use (env0 _) (core0 [] []
          (some (tracedHook (fun _ _ _ => some "hook failed")))) ())
        (tracedNext (fun _ _ _ => (5, some "post failed"))) 7 msg0 []).2
      = (tracedNext (fun _ _ _ => ((5 : Nat), some "post failed")) (7 : Nat) msg0.Subject
          msg0.Data ([] : List (Call Nat Nat))).2
    ∧ (ConnContext.postFnHandler (Core.Use (env0 _) (core0 [] [] none) ())
        (tracedNext (fun _ _ _ => (5, none))) 7 msg0 []).2
      = (tracedNext (fun _ _ _ => ((5 : Nat), none)) (7 : Nat) msg0.Subject
          msg0.Data ([] : List (Call Nat Nat))).2
    ∧ (ConnContext.postFnHandler (Core.Use (env0 _) (core0 [] []
          (some (tracedHook (fun _ _ _ => some "hook failed")))) ())
        (tracedNext (fun _ _ _ => (5, none))) 7 msg0 []).2
      = [Call.next 7 "x" [1, 2, 3], Call.postHook 7 msg0 5] :=
  ⟨(postFn_handler_swallows_errors (env0 _) (Core.Use (env0 _) (core0 [] []
        (some (tracedHook (fun _ _ _ => some "hook failed")))) ())
      (tracedNext (fun _ _ _ => (5, some "post failed"))) 7 msg0 []).2.2.2.1 (by decide),
   (postFn_handler_swallows_errors (env0 _) (Core.Use (env0 _) (core0 [] [] none) ())
      (tracedNext (fun _ _ _ => (5, none))) 7 msg0 []).2.2.2.2.1 rfl,
   (postFn_handler_swallows_errors (env0 _) (Core.Use (env0 _) (core0 [] []
        (some (tracedHook (fun _ _ _ => some "hook failed")))) ())
      (tracedNext (fun _ _ _ => (5, none))) 7 msg0 []).2.2.2.2.2.1
        (tracedHook (fun _ _ _ => some "hook failed")) rfl rfl⟩

end ConnClaims

/-! ## Claims about the singleton guard and the metrics setup -/

section NewClaims

variable {Opts Tele Context σ Resp P SM : Type}

theorem tryLock_fst (mx : RWMutex) : mx.TryLock.1 = !mx.held := by
  obtain ⟨wr, rd⟩ := mx
  cases wr <;> cases rd <;> simp [RWMutex.TryLock, RWMutex.held]

theorem tryLock_held (mx : RWMutex) : mx.TryLock.2.held = true := by
  obtain ⟨wr, rd⟩ := mx
  cases wr <;> cases rd <;> simp [RWMutex.TryLock, RWMutex.held]

theorem tryLock_snd_of_held (mx : RWMutex) (h : mx.held = true) : mx.TryLock.2 = mx := by
  obtain ⟨wr, rd⟩ := mx
  cases wr <;> cases rd <;> simp_all [RWMutex.TryLock, RWMutex.held]

theorem new_lock_after (ne : NewEnv Opts Tele Context σ Resp P SM) (opts : Opts)
    (mx : RWMutex) (w : σ) : (New ne opts mx w).2.1 = mx.TryLock.2 := by
  simp only [New]
  split
  · rfl
  · split <;> rfl

theorem new_of_held (ne : NewEnv Opts Tele Context σ Resp P SM) (opts : Opts)
    (mx : RWMutex) (w : σ) (h : mx.held = true) :
    New ne opts mx w = (Except.error (Panic.value ErrMultipleMiddleWare), mx, w) := by
  have h1 : mx.TryLock.1 = false := by rw [tryLock_fst, h]; rfl
  have h2 : mx.TryLock.2 = mx := by
    unfold RWMutex.TryLock at h1 ⊢
    split <;> simp_all
  simp [New, h1, h2]

theorem runNew_of_held (ne : NewEnv Opts Tele Context σ Resp P SM) (calls : List Opts) :
    ∀ (mx : RWMutex) (w : σ), mx.held = true →
      runNew ne calls mx w
        = (List.replicate calls.length (Except.error (Panic.value ErrMultipleMiddleWare)),
            mx, w) := by
  induction calls with
  | nil => intro mx w _; rfl
  | cons o os ih =>
    intro mx w h
    simp only [runNew, new_of_held ne o mx w h, ih mx w h, List.length_cons,
      List.replicate_succ]

/-- C5. `New` first tries the package lock `mx` without blocking. When the lock is held
the call panics with `ErrMultipleMiddleWare` and changes neither the lock nor the
world, so no config, metrics or middleware has been built. After any call of `New`
the lock is held, whatever the call returned, and a call on the unlocked `mx` of
process start takes it. Hence in every sequence of `New` calls, from any state of
the lock, every call after the first panics with `ErrMultipleMiddleWare`, and the lock
and the world after the sequence are those after its first call. No function of the
package releases the lock: a held lock stays as it is through any sequence of calls. -/
theorem new_singleton_guard (ne : NewEnv Opts Tele Context σ Resp P SM) :
    (∀ opts mx w, mx.held = true →
        New ne opts mx w = (Except.error (Panic.value ErrMultipleMiddleWare), mx, w))
    ∧ (∀ opts mx w, (New ne opts mx w).2.1.held = true)
    ∧ (∀ opts w, (New ne opts mx0 w).2.1 = ⟨true, 0⟩)
    ∧ (∀ o os mx w,
        (runNew ne (o :: os) mx w).1
          = (New ne o mx w).1
              :: List.replicate os.length (Except.error (Panic.value ErrMultipleMiddleWare)))
    ∧ (∀ o os mx w, (runNew ne (o :: os) mx w).2 = (New ne o mx w).2)
    ∧ (∀ opts mx w, (New ne opts mx w).2.1 = Fn.New.onLock mx)
    ∧ (∀ (calls : List Fn) mx, mx.held = true →
        calls.foldl (fun m f => f.onLock m) mx = mx) := by
  have hheld : ∀ o mx w, (New ne o mx w).2.1.held = true := by
    intro o mx w
    rw [new_lock_after]
    exact tryLock_held mx
  refine ⟨fun opts mx w h => new_of_held ne opts mx w h, hheld, ?_, ?_, ?_,
    fun opts mx w => new_lock_after ne opts mx w, ?_⟩
  · intro opts w
    rw [new_lock_after]
    rfl
  · intro o os mx w
    simp only [runNew, runNew_of_held ne os _ _ (hheld o mx w)]
  · intro o os mx w
    simp only [runNew, runNew_of_held ne os _ _ (hheld o mx w)]
  · intro calls mx h
    induction calls with
    | nil => rfl
    | cons f fs ih =>
      have hf : f.onLock mx = mx := by
        cases f <;> first | rfl | exact tryLock_snd_of_held mx h
      rw [List.foldl_cons, hf, ih]

/-- Witness of C5: with the lock held, `New` panics with `ErrMultipleMiddleWare` and
the log of constructor calls stays empty; from process start, the first of three
calls builds everything and the two later calls panic. -/
theorem new_singleton_guard_witness :
    panicOf (New (newEnv0 ((), none)) () ⟨true, 0⟩ []).1
        = some (Panic.value ErrMultipleMiddleWare)
    ∧ (New (newEnv0 ((), none)) () ⟨true, 0⟩ []).2 = (⟨true, 0⟩, [])
    ∧ (runNew (newEnv0 ((), none)) [(), (), ()] mx0 []).1.map panicOf
        = [none, some (Panic.value ErrMultipleMiddleWare),
            some (Panic.value ErrMultipleMiddleWare)]
    ∧ (runNew (newEnv0 ((), none)) [(), (), ()] mx0 []).2
        = (⟨true, 0⟩,
            ["newConfig", "NewSubscriptionStatMetrics", "DefaultPubMiddleware", "Middleware"])
    ∧ [Fn.Use, Fn.New, Fn.Subscribe, Fn.callback].foldl (fun m f => f.onLock m) ⟨true, 0⟩
        = ⟨true, 0⟩ :=
  ⟨congrArg (fun r => panicOf r.1)
      ((new_singleton_guard (newEnv0 ((), none))).1 () ⟨true, 0⟩ [] (by decide)),
   by decide, by decide, by decide,
   (new_singleton_guard (newEnv0 ((), none))).2.2.2.2.2.2 _ ⟨true, 0⟩ (by decide)⟩

/-- C6, as the claim states it, fails: on a meter where the creation of each of the
four gauges fails and the registration of the callback succeeds,
`NewSubscriptionMetrics` returns an aggregator and a nil error, and the nil gauges
returned by the failed creations are what its `counters` hold. -/
theorem metrics_setup_gauge_failure_not_fatal :
    (failingGauges.Gauge MetricName.SubscriptionsPendingCount [] ()).1.2
        = some "instrument creation failed"
    ∧ (failingGauges.Gauge MetricName.SubscriptionsPendingBytes
          [InstrumentOption.WithUnitBytes] ()).1.2 = some "instrument creation failed"
    ∧ (failingGauges.Gauge MetricName.SubscriptionsDroppedMsgs [] ()).1.2
        = some "instrument creation failed"
    ∧ (failingGauges.Gauge MetricName.SubscriptionCountMsgs [] ()).1.2
        = some "instrument creation failed"
    ∧ (NewSubscriptionMetrics failingGauges ()).1.2 = none
    ∧ (NewSubscriptionMetrics failingGauges ()).1.1.isSome = true
    ∧ (NewSubscriptionMetrics failingGauges ()).1.1.map
          (fun s => [s.counters MetricName.SubscriptionsPendingCount,
            s.counters MetricName.SubscriptionsPendingBytes,
            s.counters MetricName.SubscriptionsDroppedMsgs,
            s.counters MetricName.SubscriptionCountMsgs])
        = some [none, none, none, none] := by
  refine ⟨rfl, rfl, rfl, rfl, rfl, rfl, rfl⟩

/-- C6, amended. Let the four `Gauge` calls of `NewSubscriptionMetrics`, made in the
order pending count, pending bytes (with the bytes unit), dropped, delivered, each in
the world the previous one left, return the gauges `g1` to `g4` with the errors `e1` to
`e4`. Whatever these errors are, the constructor registers the callback on exactly
`[g1, g2, g3, g4]` and the aggregator that stores each gauge as returned under its
name; when the registration fails with `e` it returns a nil aggregator and the error
`"reggister callback: " ++ e`, otherwise it returns that aggregator and a nil error. So
it fails exactly when the registration fails. `New`, once it holds the lock, panics
through `tele.Panic("wrap connection", err)` exactly when the metrics constructor it
calls returned the error `err`, and otherwise returns a `Core` holding what the
constructor returned. -/
theorem metrics_setup_fails_on_callback_registration {G : Type} (meter : Meter G σ) (w : σ)
    (g1 g2 g3 g4 : Option G) (e1 e2 e3 e4 : Option Error) (w1 w2 w3 w4 : σ)
    (h1 : meter.Gauge MetricName.SubscriptionsPendingCount [] w = ((g1, e1), w1))
    (h2 : meter.Gauge MetricName.SubscriptionsPendingBytes [InstrumentOption.WithUnitBytes] w1
      = ((g2, e2), w2))
    (h3 : meter.Gauge MetricName.SubscriptionsDroppedMsgs [] w2 = ((g3, e3), w3))
    (h4 : meter.Gauge MetricName.SubscriptionCountMsgs [] w3 = ((g4, e4), w4)) :
    (∀ e, (meter.RegisterCallback [g1, g2, g3, g4] (gaugesStored g1 g2 g3 g4) w4).1 = some e →
        NewSubscriptionMetrics meter w
          = ((none, some (WithMessagef e "reggister callback")),
              (meter.RegisterCallback [g1, g2, g3, g4] (gaugesStored g1 g2 g3 g4) w4).2))
    ∧ ((meter.RegisterCallback [g1, g2, g3, g4] (gaugesStored g1 g2 g3 g4) w4).1 = none →
        NewSubscriptionMetrics meter w
          = ((some (gaugesStored g1 g2 g3 g4), none),
              (meter.RegisterCallback [g1, g2, g3, g4] (gaugesStored g1 g2 g3 g4) w4).2))
    ∧ ((NewSubscriptionMetrics meter w).1.2 ≠ none
        ↔ (meter.RegisterCallback [g1, g2, g3, g4] (gaugesStored g1 g2 g3 g4) w4).1 ≠ none)
    ∧ NewSubscriptionMetrics meter.withoutGaugeErrors w = NewSubscriptionMetrics meter w
    ∧ (∀ (ne : NewEnv Opts Tele Context σ Resp P SM) opts err,
        (ne.NewSubscriptionStatMetrics opts (ne.newConfig opts w).2).1.2 = some err →
        (New ne opts mx0 w).1 = Except.error (Panic.tele "wrap connection" err))
    ∧ (∀ (ne : NewEnv Opts Tele Context σ Resp P SM) opts,
        (ne.NewSubscriptionStatMetrics opts (ne.newConfig opts w).2).1.2 = none →
        ∃ core, (New ne opts mx0 w).1 = Except.ok core
          ∧ core.subMeter
              = (ne.NewSubscriptionStatMetrics opts (ne.newConfig opts w).2).1.1) := by
  have hres : (⟨[], fun n =>
        match n with
        | MetricName.SubscriptionsPendingCount => g1
        | MetricName.SubscriptionsPendingBytes => g2
        | MetricName.SubscriptionsDroppedMsgs => g3
        | MetricName.SubscriptionCountMsgs => g4⟩ : SubscriptionMetric G)
      = gaugesStored g1 g2 g3 g4 := rfl
  have hunfold : NewSubscriptionMetrics meter w
      = match (meter.RegisterCallback [g1, g2, g3, g4] (gaugesStored g1 g2 g3 g4) w4).1 with
        | some err =>
          ((none, some (WithMessagef err "reggister callback")),
            (meter.RegisterCallback [g1, g2, g3, g4] (gaugesStored g1 g2 g3 g4) w4).2)
        | none =>
          ((some (gaugesStored g1 g2 g3 g4), none),
            (meter.RegisterCallback [g1, g2, g3, g4] (gaugesStored g1 g2 g3 g4) w4).2) := by
    simp only [NewSubscriptionMetrics, h1, h2, h3, h4, hres]
  refine ⟨?_, ?_, ?_, rfl, ?_, ?_⟩
  · intro e he
    rw [hunfold, he]
  · intro he
    rw [hunfold, he]
  · rw [hunfold]
    cases hr : (meter.RegisterCallback [g1, g2, g3, g4] (gaugesStored g1 g2 g3 g4) w4).1
      <;> simp
  · intro ne opts err herr
    simp [New, mx0, RWMutex.TryLock, herr]
  · intro ne opts herr
    simp [New, mx0, RWMutex.TryLock, herr]

/-- Witness of C6 amended, on a meter that logs its calls and reports an error alongside
the bytes gauge: when the registration fails with `"no callbacks"` the constructor
returns the wrapped error after its five calls; when it succeeds the constructor
returns the aggregator holding the gauges `1` to `4`; `New` panics with the error of
its constructor and returns when there is none. -/
theorem metrics_setup_fails_on_callback_registration_witness :
    NewSubscriptionMetrics (loggingMeter (some "no callbacks")) []
        = ((none, some "reggister callback: no callbacks"),
            ["Gauge", "Gauge", "Gauge", "Gauge", "RegisterCallback"])
    ∧ NewSubscriptionMetrics (loggingMeter none) []
        = ((some (gaugesStored (some 1) (some 2) (some 3) (some 4)), none),
            ["Gauge", "Gauge", "Gauge", "Gauge", "RegisterCallback"])
    ∧ (New (newEnv0 ((), some "boom")) () mx0 []).1
        = Except.error (Panic.tele "wrap connection" "boom")
    ∧ (∃ core, (New (newEnv0 ((), none)) () mx0 []).1 = Except.ok core
        ∧ core.subMeter
            = ((newEnv0 ((), none)).NewSubscriptionStatMetrics ()
                ((newEnv0 ((), none)).newConfig () []).2).1.1) :=
  ⟨(@metrics_setup_fails_on_callback_registration Unit Unit Nat (List String) Nat Nat Unit _
        (loggingMeter (some "no callbacks")) [] (some 1) (some 2) (some 3) (some 4)
        none (some "unit not supported") none none
        ["Gauge"] ["Gauge", "Gauge"] ["Gauge", "Gauge", "Gauge"]
        ["Gauge", "Gauge", "Gauge", "Gauge"] rfl rfl rfl rfl).1 "no callbacks" rfl,
   (@metrics_setup_fails_on_callback_registration Unit Unit Nat (List String) Nat Nat Unit _
        (loggingMeter none) [] (some 1) (some 2) (some 3) (some 4)
        none (some "unit not supported") none none
        ["Gauge"] ["Gauge", "Gauge"] ["Gauge", "Gauge", "Gauge"]
        ["Gauge", "Gauge", "Gauge", "Gauge"] rfl rfl rfl rfl).2.1 rfl,
   (metrics_setup_fails_on_callback_registration
        (loggingMeter none) [] (some 1) (some 2) (some 3) (some 4)
        none (some "unit not supported") none none
        ["Gauge"] ["Gauge", "Gauge"] ["Gauge", "Gauge", "Gauge"]
        ["Gauge", "Gauge", "Gauge", "Gauge"] rfl rfl rfl rfl).2.2.2.2.1
      (newEnv0 ((), some "boom")) () "boom" rfl,
   (metrics_setup_fails_on_callback_registration
        (loggingMeter none) [] (some 1) (some 2) (some 3) (some 4)
        none (some "unit not supported") none none
        ["Gauge"] ["Gauge", "Gauge"] ["Gauge", "Gauge", "Gauge"]
        ["Gauge", "Gauge", "Gauge", "Gauge"] rfl rfl rfl rfl).2.2.2.2.2
      (newEnv0 ((), none)) () rfl⟩

end NewClaims

/-! ## The subscription statistics: lemmas -/

section StatLemmas

variable {G Context : Type}

theorem wrap64_add_wrap64 (a b : Int) : wrap64 (wrap64 a + wrap64 b) = wrap64 (a + b) := by
  unfold wrap64; omega

theorem wrap64_add_right (a b : Int) : wrap64 (wrap64 a + b) = wrap64 (a + b) := by
  unfold wrap64; omega

theorem wrap64_add_left (a b : Int) : wrap64 (a + wrap64 b) = wrap64 (a + b) := by
  unfold wrap64; omega

theorem wrap64_of_range (a : Int) (h1 : -9223372036854775808 ≤ a)
    (h2 : a < 9223372036854775808) : wrap64 a = a := by
  unfold wrap64; omega

theorem find_assign (k : String) (v : stat) (subj : String) :
    ∀ d : StatMap, (d.assign k v).find subj = if k = subj then some v else d.find subj := by
  intro d
  induction d with
  | nil => simp [StatMap.assign, StatMap.find]
  | cons e rest ih =>
    obtain ⟨k', v'⟩ := e
    by_cases hk : k' = k
    · subst hk
      simp only [StatMap.assign, if_true, StatMap.find]
      by_cases hs : k' = subj <;> simp [hs]
    · simp only [StatMap.assign, hk, if_false, StatMap.find, ih]
      by_cases hs : k' = subj
      · have : ¬ k = subj := fun h => hk (hs.trans h.symm)
        simp [hs, this]
      · simp [hs]

theorem find_bump (d : StatMap) (v : Subscription) (subj : String) :
    (d.bump v).find subj
      = if v.Subject = subj then some ((d.index subj).add v) else d.find subj := by
  unfold StatMap.bump
  rw [find_assign]
  by_cases h : v.Subject = subj
  · subst h; simp
  · simp [h]

theorem find_foldl_bump (subj : String) :
    ∀ (xs : List Subscription) (d : StatMap),
      (xs.foldl StatMap.bump d).find subj
        = if xs.filter (fun v => decide (v.Subject = subj)) = [] then d.find subj
          else some ((xs.filter (fun v => decide (v.Subject = subj))).foldl stat.add
            (d.index subj)) := by
  intro xs
  induction xs with
  | nil => intro d; simp
  | cons x xs ih =>
    intro d
    rw [List.foldl_cons, ih]
    by_cases hx : x.Subject = subj
    · have hf : List.filter (fun v => decide (v.Subject = subj)) (x :: xs)
          = x :: List.filter (fun v => decide (v.Subject = subj)) xs := by
        simp [List.filter_cons, hx]
      rw [hf]
      have hidx : (d.bump x).index subj = (d.index subj).add x := by
        simp [StatMap.index, find_bump, hx]
      simp only [List.foldl_cons, hidx, find_bump, hx, if_true]
      by_cases hfe : List.filter (fun v => decide (v.Subject = subj)) xs = []
      · simp [hfe]
      · simp [hfe]
    · have hf : List.filter (fun v => decide (v.Subject = subj)) (x :: xs)
          = List.filter (fun v => decide (v.Subject = subj)) xs := by
        simp [List.filter_cons, hx]
      rw [hf]
      have hidx : (d.bump x).index subj = d.index subj := by
        simp [StatMap.index, find_bump, hx]
      simp only [hidx, find_bump, hx, if_false]

theorem foldl_add_wrap :
    ∀ (ys : List Subscription) (a : stat),
      ys.foldl stat.add a.wrap
        = stat.wrap ⟨a.msgs + (ys.map (fun v => v.Pending.1)).sum,
            a.bytes + (ys.map (fun v => v.Pending.2.1)).sum,
            a.dropped + (ys.map (fun v => v.Dropped.1)).sum,
            a.count + (ys.map (fun v => v.Delivered.1)).sum⟩ := by
  intro ys
  induction ys with
  | nil => intro a; simp
  | cons y ys ih =>
    intro a
    have hstep : a.wrap.add y
        = stat.wrap ⟨a.msgs + y.Pending.1, a.bytes + y.Pending.2.1,
            a.dropped + y.Dropped.1, a.count + y.Delivered.1⟩ := by
      simp only [stat.add, stat.wrap, add64, wrap64_add_wrap64, wrap64_add_right,
        wrap64_add_left]
    rw [List.foldl_cons, hstep, ih]
    simp only [List.map_cons, List.sum_cons, add_assoc]

theorem foldl_add_zero (ys : List Subscription) :
    ys.foldl stat.add ⟨0, 0, 0, 0⟩ = sumOf ys := by
  have h := foldl_add_wrap ys ⟨0, 0, 0, 0⟩
  have hz : stat.wrap ⟨0, 0, 0, 0⟩ = ⟨0, 0, 0, 0⟩ := by decide
  rw [hz] at h
  rw [h]
  simp [stat.wrap, sumOf, sum64]

theorem find_eq_none_iff (subj : String) :
    ∀ d : StatMap, d.find subj = none ↔ subj ∉ d.map Prod.fst := by
  intro d
  induction d with
  | nil => simp [StatMap.find]
  | cons e rest ih =>
    obtain ⟨k, v⟩ := e
    by_cases hk : k = subj
    · simp [StatMap.find, hk]
    · have hk' : ¬ subj = k := fun h => hk h.symm
      simp [StatMap.find, hk, hk', ih]

theorem mem_keys_assign (k : String) (v : stat) (subj : String) :
    ∀ d : StatMap, subj ∈ (d.assign k v).map Prod.fst ↔ subj = k ∨ subj ∈ d.map Prod.fst := by
  intro d
  have h1 := find_eq_none_iff subj (d.assign k v)
  have h2 := find_eq_none_iff subj d
  rw [find_assign] at h1
  by_cases hk : k = subj
  · subst hk
    simp only [if_true] at h1
    have hmem : k ∈ (d.assign k v).map Prod.fst := by
      by_contra hcon
      exact absurd (h1.mpr hcon) (by simp)
    exact ⟨fun _ => Or.inl rfl, fun _ => hmem⟩
  · have hk' : ¬ subj = k := fun h => hk h.symm
    simp only [hk, if_false] at h1
    constructor
    · intro hm
      right
      by_contra hcon
      exact (h1.mp (h2.mpr hcon)) hm
    · rintro (h | h)
      · exact absurd h hk'
      · by_contra hcon
        exact (h2.mp (h1.mpr hcon)) h

theorem keys_assign_nodup (k : String) (v : stat) :
    ∀ d : StatMap, (d.map Prod.fst).Nodup → ((d.assign k v).map Prod.fst).Nodup := by
  intro d
  induction d with
  | nil => intro _; simp [StatMap.assign]
  | cons e rest ih =>
    obtain ⟨k', v'⟩ := e
    intro hnd
    simp only [List.map_cons, List.nodup_cons] at hnd
    by_cases hk : k' = k
    · subst hk
      simp only [StatMap.assign, if_true, List.map_cons, List.nodup_cons]
      exact hnd
    · simp only [StatMap.assign, hk, if_false, List.map_cons, List.nodup_cons]
      refine ⟨?_, ih hnd.2⟩
      rw [mem_keys_assign]
      rintro (h | h)
      · exact hk h
      · exact hnd.1 h

theorem keys_foldl_bump_nodup :
    ∀ (xs : List Subscription) (d : StatMap), (d.map Prod.fst).Nodup →
      ((xs.foldl StatMap.bump d).map Prod.fst).Nodup := by
  intro xs
  induction xs with
  | nil => intro d h; exact h
  | cons x xs ih =>
    intro d h
    rw [List.foldl_cons]
    exact ih _ (keys_assign_nodup _ _ d h)

theorem store_store_same (k v : Any) :
    ∀ m : SyncMap, (m.Store k v).Store k v = m.Store k v := by
  intro m
  induction m with
  | nil => simp [SyncMap.Store]
  | cons e rest ih =>
    obtain ⟨k', v'⟩ := e
    by_cases hk : k' = k
    · simp [SyncMap.Store, hk]
    · simp [SyncMap.Store, hk, ih]

theorem wrap64_of_fits (x : Int) (h : fits64 x = true) : wrap64 x = x := by
  simp only [fits64, Bool.and_eq_true, decide_eq_true_eq] at h
  exact wrap64_of_range x h.1 h.2

theorem sumOf_eq_exactSumOf (vs : List Subscription) (h : (exactSumOf vs).fits = true) :
    sumOf vs = exactSumOf vs := by
  simp only [stat.fits, exactSumOf, Bool.and_eq_true] at h
  obtain ⟨⟨⟨h1, h2⟩, h3⟩, h4⟩ := h
  simp only [sumOf, exactSumOf, sum64, wrap64_of_fits _ h1, wrap64_of_fits _ h2,
    wrap64_of_fits _ h3, wrap64_of_fits _ h4]

theorem sumOf_perm {a b : List Subscription} (h : a.Perm b) : sumOf a = sumOf b := by
  simp only [sumOf, sum64, (h.map _).sum_eq]

theorem holdsNil_cons (k v : Any) (rest : SyncMap) :
    SyncMap.holdsNil ((k, v) :: rest)
      = (decide (v = Any.subscription none) || SyncMap.holdsNil rest) := by
  simp only [SyncMap.holdsNil, List.map_cons, List.mem_cons]
  by_cases hv : v = Any.subscription none
  · simp [hv]
  · have hv' : ¬ Any.subscription none = v := fun h => hv h.symm
    simp [hv, hv']

theorem holdsNil_append (m1 m2 : SyncMap) :
    SyncMap.holdsNil (m1 ++ m2) = (SyncMap.holdsNil m1 || SyncMap.holdsNil m2) := by
  induction m1 with
  | nil => simp [SyncMap.holdsNil]
  | cons e rest ih =>
    obtain ⟨k, v⟩ := e
    rw [List.cons_append, holdsNil_cons, holdsNil_cons, ih, Bool.or_assoc]

theorem range_rangeBody (heap : Nat → Subscription) (m : SyncMap) :
    ∀ d : StatMap, SyncMap.Range m (rangeBody heap) d
      = if m.holdsNil = true then Except.error Panic.nilDereference
        else Except.ok ((m.subscriptions.map heap).foldl StatMap.bump d) := by
  induction m with
  | nil => intro d; rfl
  | cons e rest ih =>
    intro d
    obtain ⟨k, v⟩ := e
    rw [holdsNil_cons]
    cases v with
    | other t =>
      simp only [SyncMap.Range, rangeBody, if_true, ih, SyncMap.subscriptions,
        List.filterMap_cons]
      simp
    | subscription p =>
      cases p with
      | none => simp [SyncMap.Range, rangeBody]
      | some a =>
        simp only [SyncMap.Range, rangeBody, if_true, ih, SyncMap.subscriptions,
          List.filterMap_cons, List.map_cons, List.foldl_cons]
        simp [StatMap.bump, stat.add]

theorem collect_eq (s : SubscriptionMetric G) (heap : Nat → Subscription) :
    s.collect heap
      = if s.list.holdsNil = true then Except.error Panic.nilDereference
        else Except.ok (s.sums heap) := by
  unfold SubscriptionMetric.collect SubscriptionMetric.sums
  exact range_rangeBody heap s.list []

theorem aggregate_eq (s : SubscriptionMetric G) (heap : Nat → Subscription) (subj : String) :
    s.aggregate heap subj
      = if s.list.holdsNil = true then Except.error Panic.nilDereference
        else Except.ok ((s.sums heap).find subj) := by
  unfold SubscriptionMetric.aggregate
  rw [collect_eq]
  cases s.list.holdsNil <;> rfl

theorem sums_find (s : SubscriptionMetric G) (heap : Nat → Subscription) (subj : String) :
    (s.sums heap).find subj
      = if s.subscriptionsOn heap subj = [] then none
        else some (sumOf (s.subscriptionsOn heap subj)) := by
  unfold SubscriptionMetric.sums
  rw [find_foldl_bump]
  simp only [SubscriptionMetric.subscriptionsOn, StatMap.index, StatMap.find, Option.getD_none,
    foldl_add_zero]

theorem sums_keys_nodup (s : SubscriptionMetric G) (heap : Nat → Subscription) :
    ((s.sums heap).map Prod.fst).Nodup :=
  keys_foldl_bump_nodup _ [] (by simp)

theorem subscriptionsOn_eq_nil_iff (s : SubscriptionMetric G) (heap : Nat → Subscription)
    (subj : String) : s.subscriptionsOn heap subj = [] ↔ subj ∉ s.subjects heap := by
  simp only [SubscriptionMetric.subscriptionsOn, SubscriptionMetric.subjects,
    List.filter_eq_nil_iff, List.mem_map, decide_eq_true_eq]
  constructor
  · rintro h ⟨p, hp, rfl⟩
    exact h (heap p) ⟨p, hp, rfl⟩ rfl
  · rintro h v ⟨p, hp, rfl⟩ hv
    exact h ⟨p, hp, hv⟩

theorem mem_keys_sums (s : SubscriptionMetric G) (heap : Nat → Subscription)
    (subj : String) : subj ∈ (s.sums heap).map Prod.fst ↔ subj ∈ s.subjects heap := by
  have h1 := find_eq_none_iff subj (s.sums heap)
  rw [sums_find] at h1
  have h2 := subscriptionsOn_eq_nil_iff s heap subj
  by_cases he : s.subscriptionsOn heap subj = []
  · simp only [he, if_true, true_iff] at h1
    exact ⟨fun h => absurd h h1, fun h => absurd h (h2.mp he)⟩
  · simp only [he, if_false] at h1
    have hmem : subj ∈ (s.sums heap).map Prod.fst := by
      by_contra hcon
      exact absurd (h1.mpr hcon) (by simp)
    have hsub : subj ∈ s.subjects heap := by
      by_contra hcon
      exact he (h2.mpr hcon)
    exact ⟨fun _ => hsub, fun _ => hmem⟩

theorem length_sums (s : SubscriptionMetric G) (heap : Nat → Subscription) :
    (s.sums heap).length = (s.subjects heap).dedup.length := by
  have hperm : ((s.sums heap).map Prod.fst).Perm (s.subjects heap).dedup := by
    rw [List.perm_ext_iff_of_nodup (sums_keys_nodup s heap) (List.nodup_dedup _)]
    intro a
    rw [mem_keys_sums, List.mem_dedup]
  have := hperm.length_eq
  simpa using this

theorem observe_of_gauges (s : SubscriptionMetric G) (g : MetricName → G)
    (hg : ∀ n, s.counters n = some (g n)) (ctx : Context) (k : String) (v : stat)
    (done : List (Observation G Context)) :
    s.observe ctx k v done = (done ++ observed g ctx k v, none) := by
  simp [SubscriptionMetric.observe, Observe, andThen, hg, observed]

theorem emit_of_gauges (s : SubscriptionMetric G) (g : MetricName → G)
    (hg : ∀ n, s.counters n = some (g n)) (ctx : Context) :
    ∀ (data : StatMap) (done : List (Observation G Context)),
      s.emit ctx data done
        = (done ++ data.flatMap (fun kv => observed g ctx kv.1 kv.2), none) := by
  intro data
  induction data with
  | nil => intro done; simp [SubscriptionMetric.emit]
  | cons e rest ih =>
    intro done
    obtain ⟨k, v⟩ := e
    simp only [SubscriptionMetric.emit, observe_of_gauges s g hg, andThen, ih,
      List.flatMap_cons, List.append_assoc]

theorem callback_of_gauges (s : SubscriptionMetric G) (heap : Nat → Subscription)
    (ctx : Context) (g : MetricName → G) (hnil : s.list.holdsNil = false)
    (hg : ∀ n, s.counters n = some (g n)) :
    s.callback heap ctx
      = ((s.sums heap).flatMap (fun kv => observed g ctx kv.1 kv.2), none) := by
  unfold SubscriptionMetric.callback
  rw [collect_eq, hnil]
  simp [emit_of_gauges s g hg]

theorem callback_of_nil (s : SubscriptionMetric G) (heap : Nat → Subscription)
    (ctx : Context) (hnil : s.list.holdsNil = true) :
    s.callback heap ctx = ([], some Panic.nilDereference) := by
  unfold SubscriptionMetric.callback
  rw [collect_eq, hnil]
  rfl

theorem filter_observed (g : MetricName → G) (ctx : Context) (k subj : String) (v : stat) :
    (observed g ctx k v).filter (fun o => decide (o.subject = subj))
      = if k = subj then observed g ctx k v else [] := by
  by_cases hk : k = subj
  · simp [observed, hk]
  · simp [observed, hk]

theorem filter_flatMap_observed (g : MetricName → G) (ctx : Context) (subj : String) :
    ∀ d : StatMap, (d.map Prod.fst).Nodup →
      (d.flatMap (fun kv => observed g ctx kv.1 kv.2)).filter
          (fun o => decide (o.subject = subj))
        = match d.find subj with
          | some v => observed g ctx subj v
          | none => [] := by
  intro d
  induction d with
  | nil => intro _; rfl
  | cons e rest ih =>
    obtain ⟨k, v⟩ := e
    intro hnd
    simp only [List.map_cons, List.nodup_cons] at hnd
    rw [List.flatMap_cons, List.filter_append, filter_observed, ih hnd.2]
    by_cases hk : k = subj
    · subst hk
      have hnone : StatMap.find rest k = none := (find_eq_none_iff k rest).mpr hnd.1
      simp [StatMap.find, hnone]
    · simp [StatMap.find, hk]

theorem filter_callback (s : SubscriptionMetric G) (heap : Nat → Subscription)
    (ctx : Context) (g : MetricName → G) (hnil : s.list.holdsNil = false)
    (hg : ∀ n, s.counters n = some (g n)) (subj : String) :
    (s.callback heap ctx).1.filter (fun o => decide (o.subject = subj))
      = if subj ∈ s.subjects heap then
          observed g ctx subj (sumOf (s.subscriptionsOn heap subj))
        else [] := by
  rw [callback_of_gauges s heap ctx g hnil hg]
  simp only []
  rw [filter_flatMap_observed g ctx subj _ (sums_keys_nodup s heap), sums_find]
  have h2 := subscriptionsOn_eq_nil_iff s heap subj
  by_cases he : s.subscriptionsOn heap subj = []
  · simp [he, h2.mp he]
  · have hsub : subj ∈ s.subjects heap := by
      by_contra hcon
      exact he (h2.mpr hcon)
    simp [he, hsub]

theorem rangeBody_withErrors (heap : Nat → Subscription)
    (errs : Nat → Option Error × Option Error × Option Error) :
    rangeBody (fun a => (heap a).withErrors (errs a)) = rangeBody heap := by
  funext k v d
  cases v with
  | other t => rfl
  | subscription p => cases p <;> rfl

end StatLemmas

/-! ## Claims about `hook_sub.go` -/

section StatClaims

variable {G Context : Type}

/-- C2, as the claim states it, fails: with S1 and S2 registered next to a nil handle,
the traversal panics on `v.Subject` of the nil handle, so the run builds no aggregate
for `"x"` and completes no `Observe` call; and with S1 and S2 registered on an
aggregator whose gauges are nil, the run panics on its first `Observe` call, so the
tick yields nothing for `"x"`. -/
theorem callback_no_aggregate_on_nil_handle :
    (meter0.Register [some 1, none, some 2]).list.subscriptions = [1, 2]
    ∧ panicOf ((meter0.Register [some 1, none, some 2]).aggregate heap0 "x")
        = some Panic.nilDereference
    ∧ (meter0.Register [some 1, none, some 2]).callback heap0 (7 : Nat)
        = ([], some Panic.nilDereference)
    ∧ (nilGauges.Register [some 1, some 2]).callback heap0 (7 : Nat)
        = ([], some Panic.nilDereference) := by
  refine ⟨by decide, by decide, by decide, by decide⟩

/-- C2, amended. For every registry that holds no nil handle and every subject `subj`,
the aggregate that one run of `callback` builds for `subj` holds the sums of the
pending messages, pending bytes, dropped and delivered counters over exactly the
registered subscriptions whose `Subject` is `subj` (no aggregate when there is none):
the `int64` sums, which are the exact sums whenever these fit in 64 bits. The map has
one entry per subject. An entry of the registry on another subject changes nothing for
`subj`, and neither does the order in which the registry is traversed. When the four
gauges are non-nil the run ends without panic and its observations tagged `subj` are
these four sums, one on each gauge. With S1 and S2 on `"x"` registered, with or without
a subscription on `"y"`, the tick yields pending 8, dropped 1, delivered 17 for
`"x"`. -/
theorem callback_sums_per_subject (s : SubscriptionMetric G) (heap : Nat → Subscription)
    (subj : String) (hnil : s.list.holdsNil = false) :
    s.aggregate heap subj
        = Except.ok (if s.subscriptionsOn heap subj = [] then none
            else some (sumOf (s.subscriptionsOn heap subj)))
    ∧ (s.subscriptionsOn heap subj ≠ [] →
        (exactSumOf (s.subscriptionsOn heap subj)).fits = true →
        s.aggregate heap subj = Except.ok (some (exactSumOf (s.subscriptionsOn heap subj))))
    ∧ (∃ data, s.collect heap = Except.ok data ∧ (data.map Prod.fst).Nodup)
    ∧ (∀ (m1 m2 : SyncMap) (k : Any) (a : Nat) (c : MetricName → Option G),
        (heap a).Subject ≠ subj →
        SubscriptionMetric.aggregate ⟨m1 ++ (k, Any.subscription (some a)) :: m2, c⟩ heap subj
          = SubscriptionMetric.aggregate ⟨m1 ++ m2, c⟩ heap subj)
    ∧ (∀ (m : SyncMap) (c : MetricName → Option G), s.list.Perm m →
        SubscriptionMetric.aggregate ⟨m, c⟩ heap subj = s.aggregate heap subj)
    ∧ (∀ (ctx : Context) (g : MetricName → G), (∀ n, s.counters n = some (g n)) →
        (s.callback heap ctx).2 = none
        ∧ (s.callback heap ctx).1.filter (fun o => decide (o.subject = subj))
            = if s.subscriptionsOn heap subj = [] then []
              else
                [⟨g MetricName.SubscriptionsPendingCount, ctx,
                    (sumOf (s.subscriptionsOn heap subj)).msgs, subj⟩,
                 ⟨g MetricName.SubscriptionsPendingBytes, ctx,
                    (sumOf (s.subscriptionsOn heap subj)).bytes, subj⟩,
                 ⟨g MetricName.SubscriptionsDroppedMsgs, ctx,
                    (sumOf (s.subscriptionsOn heap subj)).dropped, subj⟩,
                 ⟨g MetricName.SubscriptionCountMsgs, ctx,
                    (sumOf (s.subscriptionsOn heap subj)).count, subj⟩])
    ∧ (meter0.Register [some 1, some 2]).aggregate heap0 "x"
        = Except.ok (some ⟨8, 800, 1, 17⟩)
    ∧ (meter0.Register [some 1, some 3, some 2]).aggregate heap0 "x"
        = Except.ok (some ⟨8, 800, 1, 17⟩)
    ∧ (meter0.Register [some 1, some 3, some 2]).aggregate heap0 "y"
        = Except.ok (some ⟨2, 20, 4, 9⟩)
    ∧ ((meter0.Register [some 1, some 2]).callback heap0 (7 : Nat)).1.filter
          (fun o => decide (o.subject = "x"))
        = [⟨MetricName.SubscriptionsPendingCount, 7, 8, "x"⟩,
           ⟨MetricName.SubscriptionsPendingBytes, 7, 800, "x"⟩,
           ⟨MetricName.SubscriptionsDroppedMsgs, 7, 1, "x"⟩,
           ⟨MetricName.SubscriptionCountMsgs, 7, 17, "x"⟩]
    ∧ ((meter0.Register [some 1, some 3, some 2]).callback heap0 (7 : Nat)).1.filter
          (fun o => decide (o.subject = "x"))
        = [⟨MetricName.SubscriptionsPendingCount, 7, 8, "x"⟩,
           ⟨MetricName.SubscriptionsPendingBytes, 7, 800, "x"⟩,
           ⟨MetricName.SubscriptionsDroppedMsgs, 7, 1, "x"⟩,
           ⟨MetricName.SubscriptionCountMsgs, 7, 17, "x"⟩] := by
  have hagg : s.aggregate heap subj
      = Except.ok (if s.subscriptionsOn heap subj = [] then none
          else some (sumOf (s.subscriptionsOn heap subj))) := by
    rw [aggregate_eq, hnil, sums_find]
    rfl
  refine ⟨hagg, ?_, ?_, ?_, ?_, ?_, rfl, rfl, rfl, by decide, by decide⟩
  · intro hne hfits
    rw [hagg, if_neg hne, sumOf_eq_exactSumOf _ hfits]
  · refine ⟨s.sums heap, ?_, sums_keys_nodup s heap⟩
    rw [collect_eq, hnil]
    rfl
  · intro m1 m2 k a c hne
    have hd : decide ((heap a).Subject = subj) = false := by simp [hne]
    have hn : SyncMap.holdsNil (m1 ++ (k, Any.subscription (some a)) :: m2)
        = SyncMap.holdsNil (m1 ++ m2) := by
      simp [holdsNil_append, holdsNil_cons]
    rw [aggregate_eq, aggregate_eq, sums_find, sums_find]
    simp only [hn, SubscriptionMetric.subscriptionsOn, SyncMap.subscriptions,
      List.filterMap_append, List.filterMap_cons, List.map_append, List.map_cons,
      List.filter_append, List.filter_cons, hd]
    simp
  · intro m c hperm
    have hn : SyncMap.holdsNil m = s.list.holdsNil := by
      simp only [SyncMap.holdsNil, ((hperm.map Prod.snd).mem_iff)]
    have hp : (s.subscriptionsOn heap subj).Perm
        (SubscriptionMetric.subscriptionsOn ⟨m, c⟩ heap subj) :=
      ((hperm.filterMap _).map heap).filter _
    rw [aggregate_eq, aggregate_eq, sums_find, sums_find, sumOf_perm hp]
    simp only [hn]
    by_cases he : s.subscriptionsOn heap subj = []
    · rw [he] at hp
      simp [he, hp.nil_eq]
    · have he' : SubscriptionMetric.subscriptionsOn ⟨m, c⟩ heap subj ≠ [] :=
        fun h => he (by rw [h] at hp; exact hp.eq_nil)
      simp [he, he']
  · intro ctx g hg
    refine ⟨?_, ?_⟩
    · rw [callback_of_gauges s heap ctx g hnil hg]
    · rw [filter_callback s heap ctx g hnil hg subj]
      have h2 := subscriptionsOn_eq_nil_iff s heap subj
      by_cases he : s.subscriptionsOn heap subj = []
      · simp [he, h2.mp he]
      · have hsub : subj ∈ s.subjects heap := by
          by_contra hcon
          exact he (h2.mpr hcon)
        simp [he, hsub, observed]

/-- Witness of C2 amended: with S1 and S2 registered the sums of `"x"` fit in 64 bits
and its aggregate holds the exact sums; an entry for the subscription `3` on `"y"`
between them leaves the aggregate of `"x"` as it is, and so does the traversal of S2
before S1; on non-nil gauges the run ends without panic. -/
theorem callback_sums_per_subject_witness :
    (meter0.Register [some 1, some 2]).aggregate heap0 "x"
        = Except.ok (some (exactSumOf ((meter0.Register [some 1, some 2]).subscriptionsOn
            heap0 "x")))
    ∧ SubscriptionMetric.aggregate
          (⟨[(Any.subscription (some 1), Any.subscription (some 1))]
              ++ (Any.subscription (some 3), Any.subscription (some 3))
                :: [(Any.subscription (some 2), Any.subscription (some 2))],
            fun n => some n⟩ : SubscriptionMetric MetricName) heap0 "x"
        = SubscriptionMetric.aggregate
          (⟨[(Any.subscription (some 1), Any.subscription (some 1))]
              ++ [(Any.subscription (some 2), Any.subscription (some 2))],
            fun n => some n⟩ : SubscriptionMetric MetricName) heap0 "x"
    ∧ SubscriptionMetric.aggregate
          (⟨[(Any.subscription (some 2), Any.subscription (some 2)),
              (Any.subscription (some 1), Any.subscription (some 1))], fun n => some n⟩ :
            SubscriptionMetric MetricName) heap0 "x"
        = (meter0.Register [some 1, some 2]).aggregate heap0 "x"
    ∧ ((meter0.Register [some 1, some 2]).callback heap0 (7 : Nat)).2 = none :=
  ⟨(@callback_sums_per_subject MetricName Nat (meter0.Register [some 1, some 2]) heap0 "x"
      rfl).2.1 (by decide) (by decide),
   (@callback_sums_per_subject MetricName Nat meter0 heap0 "x" rfl).2.2.2.1 _ _ _ 3 _
      (by decide),
   (@callback_sums_per_subject MetricName Nat (meter0.Register [some 1, some 2]) heap0 "x"
      rfl).2.2.2.2.1
      [(Any.subscription (some 2), Any.subscription (some 2)),
        (Any.subscription (some 1), Any.subscription (some 1))]
      (fun n => some n) (List.Perm.swap _ _ []),
   ((@callback_sums_per_subject MetricName Nat (meter0.Register [some 1, some 2]) heap0 "x"
      rfl).2.2.2.2.2.1 (7 : Nat) (fun n => n) (fun _ => rfl)).1⟩

/-- C3. `Register` is idempotent per handle: registering `v` again, in a second call
or twice in one call, leaves the registry that one registration leaves, so a run of
`callback` builds the same map and makes the same observations. Each argument of a
call is stored, the last one after the others. Registering S1 twice counts its
counters once. -/
theorem register_idempotent (s : SubscriptionMetric G) (v : SubPtr)
    (heap : Nat → Subscription) (ctx : Context) :
    (s.Register [v]).Register [v] = s.Register [v]
    ∧ s.Register [v, v] = s.Register [v]
    ∧ ((s.Register [v]).Register [v]).collect heap = (s.Register [v]).collect heap
    ∧ (s.Register [v, v]).collect heap = (s.Register [v]).collect heap
    ∧ ((s.Register [v]).Register [v]).callback heap ctx = (s.Register [v]).callback heap ctx
    ∧ (s.Register [v, v]).callback heap ctx = (s.Register [v]).callback heap ctx
    ∧ (∀ vs : List SubPtr, s.Register (vs ++ [v]) = (s.Register vs).Register [v])
    ∧ (meter0.Register [some 1, some 1]).collect heap0
        = Except.ok [("x", ⟨5, 500, 1, 10⟩)]
    ∧ (meter0.Register [some 1]).collect heap0 = Except.ok [("x", ⟨5, 500, 1, 10⟩)]
    ∧ (meter0.Register [some 1, some 1]).callback heap0 (7 : Nat)
        = ([⟨MetricName.SubscriptionsPendingCount, 7, 5, "x"⟩,
            ⟨MetricName.SubscriptionsPendingBytes, 7, 500, "x"⟩,
            ⟨MetricName.SubscriptionsDroppedMsgs, 7, 1, "x"⟩,
            ⟨MetricName.SubscriptionCountMsgs, 7, 10, "x"⟩], none) := by
  have h1 : (s.Register [v]).Register [v] = s.Register [v] := by
    simp [SubscriptionMetric.Register, store_store_same]
  have h2 : s.Register [v, v] = s.Register [v] := by
    simp [SubscriptionMetric.Register, store_store_same]
  refine ⟨h1, h2, ?_, ?_, ?_, ?_, ?_, rfl, rfl, by decide⟩
  · rw [h1]
  · rw [h2]
  · rw [h1]
  · rw [h2]
  · intro vs
    simp [SubscriptionMetric.Register, List.foldl_append]

/-- C7, as the claim states it, fails: on the aggregator that `NewSubscriptionMetrics`
returns when the gauge creations fail, with S1 registered, the run panics on its first
`Observe` call and completes none; with the pending-count gauge alone non-nil it
completes one call for `"x"` and panics on the second; and with a nil handle registered
before the subscription `3` on `"y"` the run panics in the traversal and makes no
observation for `"y"`. -/
theorem callback_emits_nothing_on_nil_gauge :
    (NewSubscriptionMetrics failingGauges ()).1.1.map
          (fun s => (s.Register [some 1]).callback heap0 (7 : Nat))
        = some ([], some Panic.nilDereference)
    ∧ (oneGauge.Register [some 1]).callback heap0 (7 : Nat)
        = ([⟨MetricName.SubscriptionsPendingCount, 7, 5, "x"⟩], some Panic.nilDereference)
    ∧ (meter0.Register [none, some 3]).subjects heap0 = ["y"]
    ∧ (meter0.Register [none, some 3]).callback heap0 (7 : Nat)
        = ([], some Panic.nilDereference) := by
  refine ⟨by decide, by decide, by decide, by decide⟩

/-- C7, amended. On a registry that holds no nil handle and an aggregator whose four
gauges are non-nil, one run of `callback` ends without panic and makes, for each
subject that has a registered subscription, exactly four observations tagged with that
subject: the sums of the subject on the pending-count, pending-bytes, dropped-count and
delivered-count gauges, in this order. It makes no observation tagged with any other
subject and four times the number of distinct subjects in total. On an empty registry
a run makes no observation, whatever the gauges. -/
theorem callback_emits_four_per_subject (s : SubscriptionMetric G)
    (heap : Nat → Subscription) (ctx : Context) (g : MetricName → G)
    (hnil : s.list.holdsNil = false) (hg : ∀ n, s.counters n = some (g n)) :
    (s.callback heap ctx).2 = none
    ∧ (∀ subj, (s.callback heap ctx).1.filter (fun o => decide (o.subject = subj))
        = if subj ∈ s.subjects heap then
            [⟨g MetricName.SubscriptionsPendingCount, ctx,
                (sumOf (s.subscriptionsOn heap subj)).msgs, subj⟩,
             ⟨g MetricName.SubscriptionsPendingBytes, ctx,
                (sumOf (s.subscriptionsOn heap subj)).bytes, subj⟩,
             ⟨g MetricName.SubscriptionsDroppedMsgs, ctx,
                (sumOf (s.subscriptionsOn heap subj)).dropped, subj⟩,
             ⟨g MetricName.SubscriptionCountMsgs, ctx,
                (sumOf (s.subscriptionsOn heap subj)).count, subj⟩]
          else [])
    ∧ (s.callback heap ctx).1.length = 4 * (s.subjects heap).dedup.length
    ∧ (∀ c : MetricName → Option G,
        SubscriptionMetric.callback ⟨[], c⟩ heap ctx = ([], none))
    ∧ ((meter0.Register [some 1, some 3, some 2]).callback heap0 (7 : Nat)).1.filter
          (fun o => decide (o.subject = "y"))
        = [⟨MetricName.SubscriptionsPendingCount, 7, 2, "y"⟩,
           ⟨MetricName.SubscriptionsPendingBytes, 7, 20, "y"⟩,
           ⟨MetricName.SubscriptionsDroppedMsgs, 7, 4, "y"⟩,
           ⟨MetricName.SubscriptionCountMsgs, 7, 9, "y"⟩]
    ∧ ((meter0.Register [some 1, some 3, some 2]).callback heap0 (7 : Nat)).1.length = 8
    ∧ ((meter0.Register [some 1, some 3, some 2]).callback heap0 (7 : Nat)).1.filter
          (fun o => decide (o.subject = "z")) = [] := by
  refine ⟨?_, ?_, ?_, fun _ => rfl, by decide, by decide, by decide⟩
  · rw [callback_of_gauges s heap ctx g hnil hg]
  · intro subj
    rw [filter_callback s heap ctx g hnil hg subj]
    rfl
  · rw [callback_of_gauges s heap ctx g hnil hg]
    simp only []
    rw [List.length_flatMap, ← length_sums]
    have hconst : ∀ d : StatMap,
        (List.map (List.length ∘ fun kv => observed g ctx kv.1 kv.2) d).sum = 4 * d.length := by
      intro d
      induction d with
      | nil => rfl
      | cons e rest ih =>
        rw [List.map_cons, List.sum_cons, ih, List.length_cons]
        simp only [Function.comp, observed, List.length_cons, List.length_nil]
        omega
    exact hconst _

/-- Witness of C7 amended: with S1, the subscription `3` on `"y"` and S2 registered on
non-nil gauges, the run ends without panic, makes the four observations of `"x"` and
eight observations in all. -/
theorem callback_emits_four_per_subject_witness :
    ((meter0.Register [some 1, some 3, some 2]).callback heap0 (7 : Nat)).2 = none
    ∧ ((meter0.Register [some 1, some 3, some 2]).callback heap0 (7 : Nat)).1.filter
          (fun o => decide (o.subject = "x"))
        = (if "x" ∈ (meter0.Register [some 1, some 3, some 2]).subjects heap0 then
            [⟨MetricName.SubscriptionsPendingCount, 7,
                (sumOf ((meter0.Register [some 1, some 3, some 2]).subscriptionsOn
                  heap0 "x")).msgs, "x"⟩,
             ⟨MetricName.SubscriptionsPendingBytes, 7,
                (sumOf ((meter0.Register [some 1, some 3, some 2]).subscriptionsOn
                  heap0 "x")).bytes, "x"⟩,
             ⟨MetricName.SubscriptionsDroppedMsgs, 7,
                (sumOf ((meter0.Register [some 1, some 3, some 2]).subscriptionsOn
                  heap0 "x")).dropped, "x"⟩,
             ⟨MetricName.SubscriptionCountMsgs, 7,
                (sumOf ((meter0.Register [some 1, some 3, some 2]).subscriptionsOn
                  heap0 "x")).count, "x"⟩]
          else [])
    ∧ ((meter0.Register [some 1, some 3, some 2]).callback heap0 (7 : Nat)).1.length
        = 4 * ((meter0.Register [some 1, some 3, some 2]).subjects heap0).dedup.length :=
  ⟨(callback_emits_four_per_subject (meter0.Register [some 1, some 3, some 2]) heap0
      (7 : Nat) (fun n => n) rfl (fun _ => rfl)).1,
   (callback_emits_four_per_subject (meter0.Register [some 1, some 3, some 2]) heap0
      (7 : Nat) (fun n => n) rfl (fun _ => rfl)).2.1 "x",
   (callback_emits_four_per_subject (meter0.Register [some 1, some 3, some 2]) heap0
      (7 : Nat) (fun n => n) rfl (fun _ => rfl)).2.2.1⟩

/-- C10, as the claim states it, fails: a nil handle is a registered subscription
whose reads report an error, and with it registered between S1 and the subscription
`3` on `"y"` the run panics on its `v.Subject`: the tick is aborted and neither `"x"`
nor `"y"` is emitted, where the same registry without the nil handle gives eight
observations and no panic. On an aggregator whose gauges are nil the subject of the
closed subscription `4`, though in the map, is not emitted: the run panics on its
first `Observe` call. -/
theorem callback_aborts_on_nil_subscription :
    (meter0.Register [some 1, none, some 3]).callback heap0 (7 : Nat)
        = ([], some Panic.nilDereference)
    ∧ ((meter0.Register [some 1, some 3]).callback heap0 (7 : Nat)).1.length = 8
    ∧ ((meter0.Register [some 1, some 3]).callback heap0 (7 : Nat)).2 = none
    ∧ (nilGauges.Register [some 4]).aggregate heap0 "x" = Except.ok (some ⟨-1, -1, -1, -1⟩)
    ∧ (nilGauges.Register [some 4]).callback heap0 (7 : Nat)
        = ([], some Panic.nilDereference) := by
  refine ⟨by decide, by decide, by decide, rfl, by decide⟩

/-- C10, amended. `callback` drops the errors of `Pending`, `Dropped` and `Delivered`:
a run has the same outcome whatever errors the reads report alongside their values.
On every entry that holds a non-nil subscription the closure given to `Range` adds the
values read to the entry of its subject, which is therefore present, and returns
`true`; on an entry of another type it changes nothing and returns `true`; so the
traversal of a registry goes on over its remaining entries. On a registry that holds
no nil handle the traversal completes with the subject of every registered
subscription in the map, and on non-nil gauges the run ends without panic with four
observations for each of these subjects. A closed subscription on `"x"` whose reads
return `-1` with an error lowers the sums of `"x"` by one each and the subscription on
`"y"` that follows it is still counted. -/
theorem callback_ignores_read_errors (s : SubscriptionMetric G)
    (heap : Nat → Subscription) (ctx : Context)
    (errs : Nat → Option Error × Option Error × Option Error) :
    s.callback (fun a => (heap a).withErrors (errs a)) ctx = s.callback heap ctx
    ∧ (∀ k a d, rangeBody heap k (Any.subscription (some a)) d
        = Except.ok (d.assign (heap a).Subject ((d.index (heap a).Subject).add (heap a)), true))
    ∧ (∀ (a : Nat) (d : StatMap),
        (d.assign (heap a).Subject ((d.index (heap a).Subject).add (heap a))).find
          (heap a).Subject
        = some ((d.index (heap a).Subject).add (heap a)))
    ∧ (∀ k t d, rangeBody heap k (Any.other t) d = Except.ok (d, true))
    ∧ (∀ (m1 m2 : SyncMap) (c : MetricName → Option G),
        SubscriptionMetric.collect ⟨m1 ++ m2, c⟩ heap
          = match SubscriptionMetric.collect ⟨m1, c⟩ heap with
            | Except.error p => Except.error p
            | Except.ok d => SyncMap.Range m2 (rangeBody heap) d)
    ∧ (s.list.holdsNil = false →
        ∃ data, s.collect heap = Except.ok data
          ∧ ∀ a, Any.subscription (some a) ∈ s.list.map Prod.snd →
              data.find (heap a).Subject ≠ none)
    ∧ (s.list.holdsNil = false → ∀ g : MetricName → G, (∀ n, s.counters n = some (g n)) →
        (s.callback heap ctx).2 = none
        ∧ ∀ a, Any.subscription (some a) ∈ s.list.map Prod.snd →
            ((s.callback heap ctx).1.filter
              (fun o => decide (o.subject = (heap a).Subject))).length = 4)
    ∧ (meter0.Register [some 1, some 4, some 3]).aggregate heap0 "x"
        = Except.ok (some ⟨4, 499, 0, 9⟩)
    ∧ (meter0.Register [some 1, some 4, some 3]).aggregate heap0 "y"
        = Except.ok (some ⟨2, 20, 4, 9⟩) := by
  have hmem : ∀ a, Any.subscription (some a) ∈ s.list.map Prod.snd →
      (heap a).Subject ∈ s.subjects heap := by
    intro a hp
    simp only [SubscriptionMetric.subjects, SyncMap.subscriptions, List.mem_map,
      List.mem_filterMap]
    obtain ⟨e, he, hv⟩ := List.mem_map.mp hp
    exact ⟨a, ⟨e, he, by simp [hv]⟩, rfl⟩
  refine ⟨?_, fun _ _ _ => rfl, ?_, fun _ _ _ => rfl, ?_, ?_, ?_, rfl, rfl⟩
  · simp only [SubscriptionMetric.callback, SubscriptionMetric.collect, rangeBody_withErrors]
  · intro a d
    rw [find_assign]
    simp
  · intro m1 m2 c
    simp only [SubscriptionMetric.collect, range_rangeBody, holdsNil_append,
      SyncMap.subscriptions, List.filterMap_append, List.map_append, List.foldl_append]
    cases SyncMap.holdsNil m1 <;> cases SyncMap.holdsNil m2 <;> simp [SyncMap.subscriptions]
  · intro hnil
    refine ⟨s.sums heap, ?_, ?_⟩
    · rw [collect_eq, hnil]
      rfl
    · intro a hp hnone
      exact ((find_eq_none_iff _ _).mp hnone) ((mem_keys_sums s heap _).mpr (hmem a hp))
  · intro hnil g hg
    refine ⟨?_, ?_⟩
    · rw [callback_of_gauges s heap ctx g hnil hg]
    · intro a hp
      rw [filter_callback s heap ctx g hnil hg, if_pos (hmem a hp)]
      rfl

/-- Witness of C10 amended: with S1, the closed subscription `4` and the subscription
`3` registered on non-nil gauges, the traversal completes with the subject of the
closed subscription in the map, and the run ends without panic with four observations
for that subject. -/
theorem callback_ignores_read_errors_witness :
    (∃ data, (meter0.Register [some 1, some 4, some 3]).collect heap0 = Except.ok data
        ∧ ∀ a, Any.subscription (some a)
              ∈ (meter0.Register [some 1, some 4, some 3]).list.map Prod.snd →
            data.find (heap0 a).Subject ≠ none)
    ∧ (((meter0.Register [some 1, some 4, some 3]).callback heap0 (7 : Nat)).2 = none
        ∧ ∀ a, Any.subscription (some a)
              ∈ (meter0.Register [some 1, some 4, some 3]).list.map Prod.snd →
            (((meter0.Register [some 1, some 4, some 3]).callback heap0 (7 : Nat)).1.filter
              (fun o => decide (o.subject = (heap0 a).Subject))).length = 4) :=
  ⟨(callback_ignores_read_errors (meter0.Register [some 1, some 4, some 3]) heap0 (7 : Nat)
      (fun _ => (none, none, none))).2.2.2.2.2.1 rfl,
   (callback_ignores_read_errors (meter0.Register [some 1, some 4, some 3]) heap0 (7 : Nat)
      (fun _ => (none, none, none))).2.2.2.2.2.2.1 rfl (fun n => n) (fun _ => rfl)⟩

end StatClaims

end Nats
